import Mathlib

/-!
Shallow embedding of the route-planning core of `gatsby-theme-try-ghost`
(`packages/gatsby-theme-try-ghost/gatsby-node.js`).

Ghost content nodes are modelled as plain records.  The only mutation the
source performs — stamping `node.collectionPath` in place inside
`getCollection` — is reified as an explicit write log of `(ref, value)`
pairs over a store keyed by `ref`, where `ref` is the heap identity of a
node object (two list entries with the same `ref` denote the same mutable
object).  A JavaScript field that may be `null`/`undefined` is an
`Option`.  Helpers that live outside the embedded file (`resolveUrl`,
`paginate`, `infiniteScroll`) are modelled from the specification and
marked as such in their doc comments.
-/

/-- A Ghost post node; `ref` models the heap identity of the node object,
`primaryTag`/`primaryAuthor` model `primary_tag.slug`/`primary_author.slug`. -/
structure PostNode where
  ref : Nat
  id : Nat
  slug : String
  url : Option String
  primaryTag : Option String
  primaryAuthor : Option String
  deriving DecidableEq, Repr

/-- A Ghost page node (only `slug` and `url` are read by the planner). -/
structure PageNode where
  slug : String
  url : Option String
  deriving DecidableEq, Repr

/-- A Ghost tag or author node; `postCount = none` models a `null` count. -/
structure TaxNode where
  slug : String
  url : Option String
  postCount : Option Nat
  deriving DecidableEq, Repr

/-- A configured collection: a path plus a selector predicate over posts. -/
structure Collection where
  path : String
  selector : PostNode → Bool

/-- Theme configuration (`themeOptions.routes` and `siteConfig`). -/
structure Config where
  basePath : String
  collections : List Collection
  iScrollEnabled : Bool
  verbose : Bool

/-- The materialized GraphQL fetch result consumed by `createPages`. -/
structure FetchResult where
  errors : Bool
  pages : List PageNode
  posts : List PostNode
  tags : List TaxNode
  authors : List TaxNode
  postsPerPage : Nat

/-- The mutable `collectionPath` heap: node `ref` to the stamped path
(`none` models a field that was never assigned, i.e. `undefined`). -/
def Store : Type := Nat → Option String

/-- A `createPage` context object; `none` models an absent key. -/
structure Context where
  slug : Option String := none
  prev : Option String := none
  next : Option String := none
  tag : Option String := none
  limit : Option Nat := none
  skip : Option Nat := none
  primaryTagCount : Option Nat := none
  collectionPaths : Option (List (Nat × Option String)) := none
  collectionPath : Option String := none
  iScrollEnabled : Option Bool := none
  postIds : Option (List Nat) := none
  cursor : Option Nat := none
  pageNumber : Option Nat := none
  totalItems : Option Nat := none
  itemsPerPage : Option Nat := none
  deriving DecidableEq, Repr

/-- One emitted route: the argument of one `createPage` call. -/
structure Route where
  path : String
  component : String
  context : Context
  deriving DecidableEq, Repr

/-- Splits a path string into its nonempty `/`-separated segments
(auxiliary recursion over the character list). -/
def segsAux : List Char → List Char → List String
  | [], acc => if acc = [] then [] else [String.mk acc.reverse]
  | c :: cs, acc =>
    if c = '/' then
      (if acc = [] then segsAux cs [] else String.mk acc.reverse :: segsAux cs [])
    else segsAux cs (c :: acc)

/-- Nonempty `/`-separated segments of a path string. -/
def pathSegments (s : String) : List String := segsAux s.toList []

/-- Renders a segment list back to a canonical path: `/` for the root,
otherwise `/seg1/…/segN/` (Ghost-style trailing separator, as in the
specification's scenario routes `/blog/` and `/blog/page/2`). -/
def renderPath : List String → String
  | [] => "/"
  | segs => "/" ++ String.intercalate "/" segs ++ "/"

/-- Modelled from the spec: `resolveUrl` (`./src/utils/routing`, not in
`src/`).  A present non-empty `url` override wins outright, composed under
`basePath`; otherwise the path is `basePath + collectionPath + slug` with
separators normalized.  `collectionPath = none` models an `undefined`
argument, which falls back to the default `/`. -/
def resolveUrl (basePath : String) (collectionPath : Option String := some "/")
    (slug : String := "") (url : Option String := none) : String :=
  match url with
  | some u =>
    if u ≠ "" then renderPath (pathSegments basePath ++ pathSegments u)
    else renderPath (pathSegments basePath ++ pathSegments (collectionPath.getD "/")
          ++ pathSegments slug)
  | none =>
    renderPath (pathSegments basePath ++ pathSegments (collectionPath.getD "/")
          ++ pathSegments slug)

/-- Modelled from the spec: page count of the Index Pager
(`./src/utils/pagination`, not in `src/`): `ceil(totalItems / itemsPerPage)`
with a minimum of one page even when `totalItems = 0`. -/
def numberOfPages (totalItems itemsPerPage : Nat) : Nat :=
  max 1 ((totalItems + itemsPerPage - 1) / itemsPerPage)

/-- Modelled from the spec: the Index Pager (`./src/utils/pagination`, not
in `src/`).  Emits one route per page number `0 ≤ n < numberOfPages`; page
0 reuses `pathFn 0`, later pages use the page-numbered path
`pathFn n ++ "/" ++ (n+1)`; every page's context carries the caller's
pass-through context plus `pageNumber`, `totalItems`, `itemsPerPage` and
the 0-indexed start `cursor`. -/
def paginate (totalItems itemsPerPage : Nat) (component : String)
    (pathFn : Nat → String) (baseCtx : Context) : List Route :=
  (List.range (numberOfPages totalItems itemsPerPage)).map (fun n =>
    { path := if n = 0 then pathFn n else pathFn n ++ "/" ++ toString (n + 1)
      component := component
      context := { baseCtx with
        pageNumber := some n
        totalItems := some totalItems
        itemsPerPage := some itemsPerPage
        cursor := some (n * itemsPerPage) } })

/-- The ordered id indexes produced by the Infinite-Scroll Indexer. -/
structure ScrollIndexes where
  indexIds : List Nat
  tagIds : String → List Nat
  authorIds : String → List Nat

/-- Modelled from the spec: the Infinite-Scroll Indexer
(`./src/utils/infinite-scroll`, not in `src/`).  Disabled: empty
structures.  Enabled: `indexIds` is the ordered post-id sequence;
`tagIds slug` / `authorIds slug` restrict it to posts whose primary
tag / author matches `slug`; input order is never re-sorted. -/
def infiniteScroll (enabled : Bool) (posts : List PostNode) : ScrollIndexes :=
  if enabled then
    { indexIds := posts.map (fun p => p.id)
      tagIds := fun slug =>
        (posts.filter (fun p => p.primaryTag == some slug)).map (fun p => p.id)
      authorIds := fun slug =>
        (posts.filter (fun p => p.primaryAuthor == some slug)).map (fun p => p.id) }
  else ⟨[], fun _ => [], fun _ => []⟩

/-- Applies a write log (chronological order, later writes shadow earlier
ones) to the `collectionPath` store. -/
def applyWrites (ws : List (Nat × String)) (s : Store) : Store :=
  ws.foldl (fun st e => fun r => if r = e.1 then some e.2 else st r) s

/-- The values written to `ref = r`, in chronological order. -/
def writesFor (ws : List (Nat × String)) (r : Nat) : List String :=
  (ws.filter (fun e => e.1 == r)).map Prod.snd

/-- The last value written to `ref = r`, if any. -/
def lookupLast (ws : List (Nat × String)) (r : Nat) : Option String :=
  (ws.reverse.find? (fun e => e.1 == r)).map Prod.snd

/-- JavaScript-object lookup in an id-to-collectionPath map: `none` models
both an absent key and a stored `undefined`. -/
def lookupPath (m : List (Nat × Option String)) (id : Nat) : Option String :=
  (m.find? (fun e => e.1 == id)).bind (fun e => e.2)

/-- `getCollection` (gatsby-node.js:146-161): filters `posts` by the
selector into the primary collection and the residual posts; the in-place
`node.collectionPath = …` assignments (first the matched posts get
`collectionPath`, then the residual posts get `/`) are reified as the
returned write log. -/
def getCollection (posts : List PostNode) (collectionPath : String)
    (selector : PostNode → Bool) :
    List PostNode × List PostNode × List (Nat × String) :=
  let collection := posts.filter selector
  let residualPosts := posts.filter (fun p => !(selector p))
  (collection, residualPosts,
    collection.map (fun p => (p.ref, collectionPath))
      ++ residualPosts.map (fun p => (p.ref, "/")))

/-- `getCollectionPaths` (gatsby-node.js:163-169): builds the
id-to-collectionPath map by `posts.find(…)` per id; a missing id makes the
JavaScript `undefined.node` access throw, modelled as `none`. -/
def getCollectionPaths (ids : List Nat) (posts : List PostNode) (s : Store) :
    Option (List (Nat × Option String)) :=
  match ids with
  | [] => some []
  | id :: rest =>
    match posts.find? (fun p => p.id == id) with
    | none => none
    | some p =>
      match getCollectionPaths rest posts s with
      | none => none
      | some m => some ((id, s p.ref) :: m)

/-- Placeholder post used only as a `List.getD` default. -/
def dummyPost : PostNode := ⟨0, 0, "", none, none, none⟩

/-- Placeholder route used only as a `List.getD` default. -/
def dummyRoute : Route := ⟨"", "", {}⟩

/-- Placeholder collection used only as a `List.getD` default. -/
def dummyCollection : Collection := ⟨"/", fun _ => false⟩

/-- The all-unassigned store: no node has a `collectionPath` yet. -/
def emptyStore : Store := fun _ => none

/-- The `prevNodes` slugs of `createPostPages` (gatsby-node.js:36):
`concat([{node:{slug:""}}], dropRight(posts))`. -/
def prevSlugs (posts : List PostNode) : List String :=
  "" :: posts.dropLast.map (fun p => p.slug)

/-- The `nextNodes` slugs of `createPostPages` (gatsby-node.js:37):
`concat(drop(posts), [{node:{slug:""}}])`. -/
def nextSlugs (posts : List PostNode) : List String :=
  (posts.drop 1).map (fun p => p.slug) ++ [""]

/-- The `primaryTagCount` computation of `createPostPages`
(gatsby-node.js:47-53): the `postCount` of the first tag whose slug equals
the post's primary-tag slug, defaulting to 0 when the post has no primary
tag, no tag matches, or the matched count is `null`. -/
def primaryTagCountOf (tags : List TaxNode) (node : PostNode) : Nat :=
  match tags.find? (fun t =>
      match node.primaryTag with
      | some ts => t.slug == ts
      | none => false) with
  | some t => t.postCount.getD 0
  | none => 0

/-- `createOrdinaryPages` (gatsby-node.js:12-31). -/
def createOrdinaryPages (basePath : String) (pages : List PageNode)
    (component : String) : List Route :=
  pages.map (fun node =>
    { path := resolveUrl basePath (some "/") node.slug node.url
      component := component
      context := { slug := some node.slug } })

/-- `createPostPages` (gatsby-node.js:34-72).  The second component is the
thrown error, `none` on success; on a `getCollectionPaths` failure the
throw happens before any `createPage` call of this builder, so no route is
emitted. -/
def createPostPages (basePath : String) (posts : List PostNode)
    (tags : List TaxNode) (component : String) (s : Store)
    (ampPath : String := "") : List Route × Option String :=
  match getCollectionPaths (posts.map (fun e => e.id)) posts s with
  | none => ([], some "getCollectionPaths")
  | some collectionPaths =>
    ((List.range posts.length).map (fun i =>
      let node := posts.getD i dummyPost
      { path := resolveUrl basePath (lookupPath collectionPaths node.id)
            node.slug node.url ++ ampPath
        component := component
        context := { slug := some node.slug
                     prev := some ((prevSlugs posts).getD i "")
                     next := some ((nextSlugs posts).getD i "")
                     tag := some (node.primaryTag.getD "")
                     limit := some 3
                     skip := some 0
                     primaryTagCount := some (primaryTagCountOf tags node)
                     collectionPaths := some collectionPaths } }), none)

/-- `createIndexPage` (gatsby-node.js:75-99). -/
def createIndexPage (basePath : String) (iScroll : Bool) (postsPerPage : Nat)
    (posts : List PostNode) (postIds : List Nat) (component : String)
    (collectionPath : String := "/") : List Route :=
  let path := resolveUrl basePath (some collectionPath) "" none
  paginate posts.length postsPerPage component
    (fun n => if n = 0 then path else path ++ "page")
    { collectionPath := some collectionPath
      iScrollEnabled := some iScroll
      postIds := some postIds
      cursor := some 0 }

/-- `createTaxonomyPages` (gatsby-node.js:102-130).  The second component
is the thrown error: a `getCollectionPaths` failure for one node aborts
the loop, keeping the routes of the earlier nodes. -/
def createTaxonomyPages (basePath : String) (iScroll : Bool)
    (postsPerPage : Nat) (taxonomy : List TaxNode)
    (postIds : String → List Nat) (component : String)
    (allPosts : List PostNode) (s : Store) : List Route × Option String :=
  match taxonomy with
  | [] => ([], none)
  | node :: rest =>
    let url := resolveUrl basePath (some "/") node.slug node.url
    match getCollectionPaths (postIds node.slug) allPosts s with
    | none => ([], some "getCollectionPaths")
    | some collectionPaths =>
      let block := paginate (node.postCount.getD 0) postsPerPage component
        (fun n => if n = 0 then url else url ++ "page")
        { slug := some node.slug
          collectionPaths := some collectionPaths
          iScrollEnabled := some iScroll
          postIds := some (postIds node.slug)
          cursor := some 0 }
      let tail := createTaxonomyPages basePath iScroll postsPerPage rest
        postIds component allPosts s
      (block ++ tail.1, tail.2)

/-- The per-node route block of `createTaxonomyPages`, with the
id-to-collectionPath map defaulted to `[]` on lookup failure (on the
success path it coincides with the builder's block). -/
def taxonomyBlock (basePath : String) (iScroll : Bool) (postsPerPage : Nat)
    (postIds : String → List Nat) (component : String)
    (allPosts : List PostNode) (s : Store) (node : TaxNode) : List Route :=
  let url := resolveUrl basePath (some "/") node.slug node.url
  paginate (node.postCount.getD 0) postsPerPage component
    (fun n => if n = 0 then url else url ++ "page")
    { slug := some node.slug
      collectionPaths := some ((getCollectionPaths (postIds node.slug) allPosts s).getD [])
      iScrollEnabled := some iScroll
      postIds := some (postIds node.slug)
      cursor := some 0 }

/-- `createCollection` (gatsby-node.js:137-144): post pages followed by the
paginated collection index. -/
def createCollection (basePath : String) (iScroll : Bool) (postsPerPage : Nat)
    (posts : List PostNode) (allTags : List TaxNode)
    (collectionPath : String) (s : Store) : List Route × Option String :=
  match createPostPages basePath posts allTags "post" s with
  | (postRoutes, some e) => (postRoutes, some e)
  | (postRoutes, none) =>
    let indexIds := (infiniteScroll iScroll posts).indexIds
    (postRoutes
      ++ createIndexPage basePath iScroll postsPerPage posts indexIds "index"
          collectionPath, none)

/-- The result of the collection loop of `createPages`. -/
structure LoopOut where
  routes : List Route
  err : Option String
  deflt : List PostNode
  writes : List (Nat × String)
  store : Store

/-- The `collections.forEach` loop of `createPages`
(gatsby-node.js:217-221): each configured collection peels off its posts
(stamping `collectionPath` in place, modelled by the write log and store),
builds its routes, and re-feeds the residual posts to the next iteration;
`deflt` is the residual left for the default collection. -/
def collectionLoop (basePath : String) (iScroll : Bool) (postsPerPage : Nat)
    (allTags : List TaxNode) :
    List Collection → List PostNode → Store → LoopOut
  | [], posts, s => ⟨[], none, posts, [], s⟩
  | c :: rest, posts, s =>
    match (createCollection basePath iScroll postsPerPage
        (getCollection posts c.path c.selector).1 allTags c.path
        (applyWrites (getCollection posts c.path c.selector).2.2 s)).2 with
    | some e =>
      ⟨(createCollection basePath iScroll postsPerPage
          (getCollection posts c.path c.selector).1 allTags c.path
          (applyWrites (getCollection posts c.path c.selector).2.2 s)).1,
       some e, (getCollection posts c.path c.selector).2.1,
       (getCollection posts c.path c.selector).2.2,
       applyWrites (getCollection posts c.path c.selector).2.2 s⟩
    | none =>
      ⟨(createCollection basePath iScroll postsPerPage
          (getCollection posts c.path c.selector).1 allTags c.path
          (applyWrites (getCollection posts c.path c.selector).2.2 s)).1
        ++ (collectionLoop basePath iScroll postsPerPage allTags rest
            (getCollection posts c.path c.selector).2.1
            (applyWrites (getCollection posts c.path c.selector).2.2 s)).routes,
       (collectionLoop basePath iScroll postsPerPage allTags rest
            (getCollection posts c.path c.selector).2.1
            (applyWrites (getCollection posts c.path c.selector).2.2 s)).err,
       (collectionLoop basePath iScroll postsPerPage allTags rest
            (getCollection posts c.path c.selector).2.1
            (applyWrites (getCollection posts c.path c.selector).2.2 s)).deflt,
       (getCollection posts c.path c.selector).2.2
         ++ (collectionLoop basePath iScroll postsPerPage allTags rest
            (getCollection posts c.path c.selector).2.1
            (applyWrites (getCollection posts c.path c.selector).2.2 s)).writes,
       (collectionLoop basePath iScroll postsPerPage allTags rest
            (getCollection posts c.path c.selector).2.1
            (applyWrites (getCollection posts c.path c.selector).2.2 s)).store⟩

/-- The pure partition skeleton of the collection loop: the per-collection
`(path, matched posts)` groups and the final residual (default) posts. -/
def partitionChain : List Collection → List PostNode →
    List (String × List PostNode) × List PostNode
  | [], posts => ([], posts)
  | c :: rest, posts =>
    let pr := getCollection posts c.path c.selector
    let g := partitionChain rest pr.2.1
    ((c.path, pr.1) :: g.1, g.2)

/-- The full chronological `collectionPath` write log of the collection
loop. -/
def chainWrites : List Collection → List PostNode → List (Nat × String)
  | [], _ => []
  | c :: rest, posts =>
    let pr := getCollection posts c.path c.selector
    pr.2.2 ++ chainWrites rest pr.2.1

/-- The path of the first configured collection whose selector matches the
post, defaulting to `/`. -/
def firstMatchPath (cols : List Collection) (p : PostNode) : String :=
  ((cols.find? (fun c => c.selector p)).map (fun c => c.path)).getD "/"

/-- The index of the first configured collection whose selector matches the
post, if any. -/
def matchIdx : List Collection → PostNode → Option Nat
  | [], _ => none
  | c :: rest, p =>
    if c.selector p then some 0 else (matchIdx rest p).map (fun i => i + 1)

/-- The outcome of one `createPages` run: the emitted routes in order, the
thrown error if any, the `collectionPath` write log, and the final store. -/
structure RunOutcome where
  routes : List Route
  err : Option String
  writes : List (Nat × String)
  store : Store

/-- `createPages` (gatsby-node.js:175-235): aborts on fetch errors before
anything is emitted, then ordinary pages, the collection loop, the default
collection, and the tag and author taxonomy pages (restricted to nodes with
`postCount > 0`); a thrown error aborts the remaining stages but keeps the
routes already emitted. -/
def createPages (cfg : Config) (res : FetchResult) (s0 : Store) : RunOutcome :=
  if res.errors then ⟨[], some "fetch", [], s0⟩ else
  let ordinary := createOrdinaryPages cfg.basePath res.pages "page"
  let lo := collectionLoop cfg.basePath cfg.iScrollEnabled res.postsPerPage
    res.tags cfg.collections res.posts s0
  match lo.err with
  | some e => ⟨ordinary ++ lo.routes, some e, lo.writes, lo.store⟩
  | none =>
    let dc := createCollection cfg.basePath cfg.iScrollEnabled res.postsPerPage
      lo.deflt res.tags "/" lo.store
    match dc.2 with
    | some e => ⟨ordinary ++ lo.routes ++ dc.1, some e, lo.writes, lo.store⟩
    | none =>
      let idx := infiniteScroll cfg.iScrollEnabled res.posts
      let postTags := res.tags.filter (fun n => 0 < n.postCount.getD 0)
      let postAuthors := res.authors.filter (fun n => 0 < n.postCount.getD 0)
      let tr := createTaxonomyPages cfg.basePath cfg.iScrollEnabled
        res.postsPerPage postTags idx.tagIds "tag" res.posts lo.store
      match tr.2 with
      | some e =>
        ⟨ordinary ++ lo.routes ++ dc.1 ++ tr.1, some e, lo.writes, lo.store⟩
      | none =>
        let ar := createTaxonomyPages cfg.basePath cfg.iScrollEnabled
          res.postsPerPage postAuthors idx.authorIds "author" res.posts lo.store
        ⟨ordinary ++ lo.routes ++ dc.1 ++ tr.1 ++ ar.1, ar.2, lo.writes, lo.store⟩

/-! ### Store and write-log lemmas -/

theorem applyWrites_nil (s : Store) : applyWrites [] s = s := rfl

theorem applyWrites_append (A B : List (Nat × String)) (s : Store) :
    applyWrites (A ++ B) s = applyWrites B (applyWrites A s) :=
  List.foldl_append _ _ _ _

theorem lookupLast_nil (r : Nat) : lookupLast [] r = none := rfl

/-- The store after a write log reads the last write when one exists, and
falls back to the initial store otherwise. -/
theorem applyWrites_eq (W : List (Nat × String)) (s : Store) (r : Nat) :
    applyWrites W s r = match lookupLast W r with
      | some v => some v
      | none => s r := by
  induction W generalizing s with
  | nil => rfl
  | cons e t ih =>
    show applyWrites t (fun x => if x = e.1 then some e.2 else s x) r = _
    rw [ih]
    unfold lookupLast
    rw [List.reverse_cons, List.find?_append]
    cases hf : t.reverse.find? (fun x => x.1 == r) with
    | some x => simp [lookupLast, hf, Option.or]
    | none =>
      simp only [lookupLast, hf, Option.none_or, List.find?]
      by_cases hr : e.1 = r
      · simp [hr, beq_iff_eq]
      · have : (e.1 == r) = false := beq_eq_false_iff_ne.mpr hr
        simp [this, Ne.symm hr]

theorem lookupLast_append (A B : List (Nat × String)) (r : Nat) :
    lookupLast (A ++ B) r = match lookupLast B r with
      | some v => some v
      | none => lookupLast A r := by
  unfold lookupLast
  rw [List.reverse_append, List.find?_append]
  cases hf : B.reverse.find? (fun x => x.1 == r) <;> simp [hf, Option.or]

/-- A write log that holds a write for `r` yields a last value for `r`. -/
theorem lookupLast_isSome (W : List (Nat × String)) (r : Nat)
    (h : r ∈ W.map Prod.fst) : ∃ v, lookupLast W r = some v := by
  obtain ⟨e, he, hr⟩ := List.mem_map.mp h
  have hs : (W.reverse.find? (fun x => x.1 == r)).isSome :=
    List.find?_isSome.mpr ⟨e, by simp [List.mem_reverse, he], by simp [hr]⟩
  obtain ⟨x, hx⟩ := Option.isSome_iff_exists.mp hs
  exact ⟨x.2, by simp [lookupLast, hx]⟩

theorem lookupLast_eq_none (W : List (Nat × String)) (r : Nat)
    (h : ∀ e ∈ W, e.1 ≠ r) : lookupLast W r = none := by
  unfold lookupLast
  have : W.reverse.find? (fun x => x.1 == r) = none := by
    rw [List.find?_eq_none]
    intro e he
    simp [h e (List.mem_reverse.mp he)]
  simp [this]

/-- When every write in the log carries the same value and a write for `r`
exists, the last value for `r` is that value. -/
theorem lookupLast_const (W : List (Nat × String)) (v : String) (r : Nat)
    (hall : ∀ e ∈ W, e.2 = v) (h : r ∈ W.map Prod.fst) :
    lookupLast W r = some v := by
  obtain ⟨w, hw⟩ := lookupLast_isSome W r h
  unfold lookupLast at hw ⊢
  cases hf : W.reverse.find? (fun x => x.1 == r) with
  | none => rw [hf] at hw; simp at hw
  | some x =>
    have hx : x ∈ W := List.mem_reverse.mp (List.mem_of_find?_eq_some hf)
    simp [hall x hx]

theorem applyWrites_point (W : List (Nat × String)) (s t : Store) (r : Nat)
    (h : s r = t r) : applyWrites W s r = applyWrites W t r := by
  rw [applyWrites_eq, applyWrites_eq]
  cases lookupLast W r <;> simp [h]

theorem applyWrites_of_key (W : List (Nat × String)) (s t : Store) (r : Nat)
    (h : r ∈ W.map Prod.fst) : applyWrites W s r = applyWrites W t r := by
  obtain ⟨v, hv⟩ := lookupLast_isSome W r h
  rw [applyWrites_eq, applyWrites_eq, hv]

/-! ### `getCollectionPaths` lemmas -/

/-- An id with no matching post makes the lookup fail (the JavaScript
`undefined.node` throw). -/
theorem getCollectionPaths_fails (ids : List Nat) (posts : List PostNode)
    (s : Store) (h : ∃ id ∈ ids, ∀ p ∈ posts, p.id ≠ id) :
    getCollectionPaths ids posts s = none := by
  induction ids with
  | nil => obtain ⟨id, hid, _⟩ := h; cases hid
  | cons a rest ih =>
    obtain ⟨id, hid, hnone⟩ := h
    rcases List.mem_cons.mp hid with rfl | hmem
    · have : posts.find? (fun p => p.id == id) = none := by
        rw [List.find?_eq_none]
        intro p hp
        simp [hnone p hp]
      simp [getCollectionPaths, this]
    · show getCollectionPaths (a :: rest) posts s = none
      unfold getCollectionPaths
      rw [ih ⟨id, hmem, hnone⟩]
      cases posts.find? (fun p => p.id == a) <;> rfl

/-- When every id has a matching post, the lookup succeeds and maps each
id to the `collectionPath` of the first post bearing that id. -/
theorem getCollectionPaths_ok (ids : List Nat) (posts : List PostNode)
    (s : Store) (h : ∀ id ∈ ids, ∃ p ∈ posts, p.id = id) :
    ∃ m, getCollectionPaths ids posts s = some m ∧
      ∀ id ∈ ids, ∃ p, posts.find? (fun q => q.id == id) = some p ∧
        lookupPath m id = s p.ref := by
  induction ids with
  | nil => exact ⟨[], rfl, by intro id hid; cases hid⟩
  | cons a rest ih =>
    obtain ⟨q, hq, hqa⟩ := h a (List.mem_cons_self a rest)
    have hfs : (posts.find? (fun p => p.id == a)).isSome :=
      List.find?_isSome.mpr ⟨q, hq, by simp [hqa]⟩
    obtain ⟨p0, hp0⟩ := Option.isSome_iff_exists.mp hfs
    obtain ⟨m, hm, hmap⟩ := ih (fun id hid => h id (List.mem_cons_of_mem a hid))
    refine ⟨(a, s p0.ref) :: m, ?_, ?_⟩
    · unfold getCollectionPaths
      rw [hp0, hm]
    · intro id hid
      rcases List.mem_cons.mp hid with rfl | hmem
      · exact ⟨p0, hp0, by simp [lookupPath, List.find?]⟩
      · by_cases hcase : a = id
        · subst hcase
          exact ⟨p0, hp0, by simp [lookupPath, List.find?]⟩
        · obtain ⟨p, hp, hval⟩ := hmap id hmem
          refine ⟨p, hp, ?_⟩
          have : (a == id) = false := beq_eq_false_iff_ne.mpr hcase
          simpa [lookupPath, List.find?, this] using hval

/-! ### Partition lemmas -/

theorem getCollection_fst (posts : List PostNode) (cp : String)
    (sel : PostNode → Bool) : (getCollection posts cp sel).1 = posts.filter sel := rfl

theorem getCollection_resid (posts : List PostNode) (cp : String)
    (sel : PostNode → Bool) :
    (getCollection posts cp sel).2.1 = posts.filter (fun p => !(sel p)) := rfl

theorem getCollection_writes (posts : List PostNode) (cp : String)
    (sel : PostNode → Bool) :
    (getCollection posts cp sel).2.2
      = (posts.filter sel).map (fun p => (p.ref, cp))
        ++ (posts.filter (fun p => !(sel p))).map (fun p => (p.ref, "/")) := rfl

/-- Every post of the step's input receives a write in that step (matched
posts get the collection path, residual posts get `/`). -/
theorem getCollection_covers (posts : List PostNode) (cp : String)
    (sel : PostNode → Bool) (p : PostNode) (hp : p ∈ posts) :
    p.ref ∈ ((getCollection posts cp sel).2.2).map Prod.fst := by
  rw [getCollection_writes, List.map_append]
  by_cases hsel : sel p = true
  · exact List.mem_append_left _ (by
      simp only [List.map_map]
      exact List.mem_map.mpr ⟨p, List.mem_filter.mpr ⟨hp, hsel⟩, rfl⟩)
  · refine List.mem_append_right _ ?_
    simp only [List.map_map]
    exact List.mem_map.mpr ⟨p, List.mem_filter.mpr ⟨hp, by simp [hsel]⟩, rfl⟩

/-- Every write of the loop's log targets the `ref` of one of the input
posts. -/
theorem chainWrites_keys (cols : List Collection) (posts : List PostNode) :
    ∀ e ∈ chainWrites cols posts, e.1 ∈ posts.map PostNode.ref := by
  induction cols generalizing posts with
  | nil => intro e he; cases he
  | cons c rest ih =>
    intro e he
    rw [chainWrites] at he
    rcases List.mem_append.mp he with h1 | h2
    · rw [getCollection_writes] at h1
      rcases List.mem_append.mp h1 with ha | hb
      · obtain ⟨p, hp, rfl⟩ := List.mem_map.mp ha
        exact List.mem_map.mpr ⟨p, (List.mem_filter.mp hp).1, rfl⟩
      · obtain ⟨p, hp, rfl⟩ := List.mem_map.mp hb
        exact List.mem_map.mpr ⟨p, (List.mem_filter.mp hp).1, rfl⟩
    · have := ih (getCollection posts c.path c.selector).2.1 e h2
      rw [getCollection_resid] at this
      obtain ⟨p, hp, hpr⟩ := List.mem_map.mp this
      exact List.mem_map.mpr ⟨p, (List.mem_filter.mp hp).1, hpr⟩

theorem chainWrites_cons (c : Collection) (rest : List Collection)
    (posts : List PostNode) :
    chainWrites (c :: rest) posts
      = (getCollection posts c.path c.selector).2.2
        ++ chainWrites rest (getCollection posts c.path c.selector).2.1 := rfl

theorem partitionChain_length (cols : List Collection) (posts : List PostNode) :
    (partitionChain cols posts).1.length = cols.length := by
  induction cols generalizing posts with
  | nil => rfl
  | cons c rest ih => simp [partitionChain, ih]

/-- Members of any group of the partition chain come from the input posts. -/
theorem partitionChain_group_sub (cols : List Collection) (posts : List PostNode) :
    ∀ g ∈ (partitionChain cols posts).1, ∀ p ∈ g.2, p ∈ posts := by
  induction cols generalizing posts with
  | nil => intro g hg; cases hg
  | cons c rest ih =>
    intro g hg p hp
    rw [partitionChain] at hg
    rcases List.mem_cons.mp hg with rfl | hmem
    · exact (List.mem_filter.mp (by simpa [getCollection_fst] using hp)).1
    · have := ih (getCollection posts c.path c.selector).2.1 g hmem p hp
      rw [getCollection_resid] at this
      exact (List.mem_filter.mp this).1

/-- The default (residual) posts of the partition chain come from the
input posts. -/
theorem partitionChain_deflt_sub (cols : List Collection) (posts : List PostNode) :
    ∀ p ∈ (partitionChain cols posts).2, p ∈ posts := by
  induction cols generalizing posts with
  | nil => intro p hp; exact hp
  | cons c rest ih =>
    intro p hp
    rw [partitionChain] at hp
    have := ih (getCollection posts c.path c.selector).2.1 p hp
    rw [getCollection_resid] at this
    exact (List.mem_filter.mp this).1

/-- The groups of the partition chain plus the default posts are a
permutation of the input posts. -/
theorem partitionChain_perm (cols : List Collection) (posts : List PostNode) :
    List.Perm
      (((partitionChain cols posts).1.map Prod.snd).flatten
        ++ (partitionChain cols posts).2) posts := by
  induction cols generalizing posts with
  | nil => simp [partitionChain]
  | cons c rest ih =>
    rw [partitionChain]
    simp only [List.map_cons, List.flatten_cons, List.append_assoc]
    refine List.Perm.trans (List.Perm.append_left _ (ih _)) ?_
    rw [getCollection_fst, getCollection_resid]
    exact List.filter_append_perm _ posts

/-- Distinct groups of the partition chain share no post. -/
theorem partitionChain_pairwise (cols : List Collection) (posts : List PostNode) :
    List.Pairwise (fun g1 g2 => ∀ p, p ∈ g1.2 → p ∈ g2.2 → False)
      (partitionChain cols posts).1 := by
  induction cols generalizing posts with
  | nil => exact List.Pairwise.nil
  | cons c rest ih =>
    rw [partitionChain]
    refine List.Pairwise.cons ?_ (ih _)
    intro g hg p hp hpg
    have hsel : c.selector p = true :=
      (List.mem_filter.mp (by simpa [getCollection_fst] using hp)).2
    have hmem := partitionChain_group_sub rest _ g hg p hpg
    rw [getCollection_resid] at hmem
    have : (!(c.selector p)) = true := (List.mem_filter.mp hmem).2
    simp [hsel] at this

/-- No default post appears in any group of the partition chain. -/
theorem partitionChain_deflt_disjoint (cols : List Collection)
    (posts : List PostNode) :
    ∀ p ∈ (partitionChain cols posts).2,
      ∀ g ∈ (partitionChain cols posts).1, p ∉ g.2 := by
  induction cols generalizing posts with
  | nil => intro p _ g hg; cases hg
  | cons c rest ih =>
    intro p hp g hg
    rw [partitionChain] at hp hg
    rcases List.mem_cons.mp hg with rfl | hmem
    · intro hpg
      have hsel : c.selector p = true :=
        (List.mem_filter.mp (by simpa [getCollection_fst] using hpg)).2
      have hd := partitionChain_deflt_sub rest _ p hp
      rw [getCollection_resid] at hd
      have : (!(c.selector p)) = true := (List.mem_filter.mp hd).2
      simp [hsel] at this
    · exact ih _ p hp g hmem

/-! ### Write-log characterization of the partition chain -/

theorem writesFor_append (A B : List (Nat × String)) (r : Nat) :
    writesFor (A ++ B) r = writesFor A r ++ writesFor B r := by
  simp [writesFor, List.filter_append]

theorem writesFor_eq_nil (W : List (Nat × String)) (r : Nat)
    (h : ∀ e ∈ W, e.1 ≠ r) : writesFor W r = [] := by
  unfold writesFor
  have : W.filter (fun e => e.1 == r) = [] := by
    rw [List.filter_eq_nil_iff]
    intro e he
    simp [h e he]
  simp [this]

/-- In a duplicate-free post list, the posts whose `ref` equals `p.ref`
are exactly `p` itself (when present). -/
theorem filter_ref_eq (l : List PostNode) (p : PostNode) (hnd : l.Nodup)
    (hinj : ∀ q ∈ l, q.ref = p.ref → q = p) :
    l.filter (fun q => q.ref == p.ref) = if p ∈ l then [p] else [] := by
  induction l with
  | nil => simp
  | cons a t ih =>
    have hndt : t.Nodup := (List.nodup_cons.mp hnd).2
    have hinjt : ∀ q ∈ t, q.ref = p.ref → q = p :=
      fun q hq => hinj q (List.mem_cons_of_mem a hq)
    by_cases hap : a = p
    · subst hap
      have hpt : a ∉ t := (List.nodup_cons.mp hnd).1
      have ht : t.filter (fun q => q.ref == a.ref) = [] := by
        rw [List.filter_eq_nil_iff]
        intro q hq
        simp only [beq_iff_eq]
        intro hqa
        exact hpt (hinjt q hq hqa ▸ hq)
      simp [List.filter_cons, ht, hpt]
    · have haf : (a.ref == p.ref) = false := by
        rw [beq_eq_false_iff_ne]
        intro h
        exact hap (hinj a (List.mem_cons_self a t) h)
      rw [List.filter_cons_of_neg (by simp [haf]), ih hndt hinjt]
      by_cases hpt : p ∈ t
      · simp [hpt, List.mem_cons_of_mem a hpt]
      · have hnotc : p ∉ a :: t := by
          intro hmem
          rcases List.mem_cons.mp hmem with h | h
          · exact hap h.symm
          · exact hpt h
        simp [hpt, hnotc]

theorem writesFor_map_const (l : List PostNode) (v : String) (r : Nat) :
    writesFor (l.map (fun q => (q.ref, v))) r
      = (l.filter (fun q => q.ref == r)).map (fun _ => v) := by
  unfold writesFor
  rw [List.filter_map, List.map_map]
  rfl

/-- The chronological `collectionPath` writes a post receives across the
whole collection loop: `/` once per step it stays residual in, then the
matching collection's path at its first matching step and nothing after;
a never-matched post is stamped `/` once per configured collection. -/
theorem writesFor_chain (cols : List Collection) (posts : List PostNode)
    (p : PostNode) (hp : p ∈ posts) (hnd : (posts.map PostNode.ref).Nodup) :
    writesFor (chainWrites cols posts) p.ref =
      match matchIdx cols p with
      | some i => List.replicate i "/" ++ [(cols.getD i dummyCollection).path]
      | none => List.replicate cols.length "/" := by
  induction cols generalizing posts with
  | nil => simp [chainWrites, writesFor, matchIdx]
  | cons c rest ih =>
    have hndl : posts.Nodup := hnd.of_map
    have hinj : ∀ q ∈ posts, q.ref = p.ref → q = p :=
      fun q hq h => List.inj_on_of_nodup_map hnd hq hp h
    have hprim : (posts.filter c.selector).Nodup :=
      hndl.sublist (List.filter_sublist posts)
    have hresid : (posts.filter (fun q => !(c.selector q))).Nodup :=
      hndl.sublist (List.filter_sublist posts)
    have hinjprim : ∀ q ∈ posts.filter c.selector, q.ref = p.ref → q = p :=
      fun q hq => hinj q (List.mem_filter.mp hq).1
    have hinjresid : ∀ q ∈ posts.filter (fun q => !(c.selector q)),
        q.ref = p.ref → q = p := fun q hq => hinj q (List.mem_filter.mp hq).1
    rw [chainWrites_cons, writesFor_append, getCollection_writes, writesFor_append,
      writesFor_map_const, writesFor_map_const,
      filter_ref_eq _ p hprim hinjprim, filter_ref_eq _ p hresid hinjresid]
    by_cases hsel : c.selector p = true
    · have hpm : p ∈ posts.filter c.selector := List.mem_filter.mpr ⟨hp, hsel⟩
      have hpr : p ∉ posts.filter (fun q => !(c.selector q)) := by
        intro hmem
        have := (List.mem_filter.mp hmem).2
        simp [hsel] at this
      have hrest : writesFor
          (chainWrites rest (getCollection posts c.path c.selector).2.1) p.ref = [] := by
        apply writesFor_eq_nil
        intro e he hkey
        have := chainWrites_keys rest _ e he
        obtain ⟨q, hq, hqr⟩ := List.mem_map.mp this
        rw [getCollection_resid] at hq
        have : q = p := hinjresid q hq (hkey ▸ hqr)
        exact hpr (this ▸ hq)
      simp [hpm, hpr, hrest, matchIdx, hsel]
    · have hpm : p ∉ posts.filter c.selector := by
        intro hmem
        exact hsel (List.mem_filter.mp hmem).2
      have hpr : p ∈ posts.filter (fun q => !(c.selector q)) :=
        List.mem_filter.mpr ⟨hp, by simp [hsel]⟩
      have hndresid : ((posts.filter (fun q => !(c.selector q))).map PostNode.ref).Nodup :=
        hnd.sublist ((List.filter_sublist posts).map PostNode.ref)
      have hrest := ih (getCollection posts c.path c.selector).2.1
        (by rw [getCollection_resid]; exact hpr)
        (by rw [getCollection_resid]; exact hndresid)
      simp only [hpm, hpr, if_true, if_false, List.map_cons, List.map_nil,
        List.nil_append, List.cons_append]
      rw [hrest]
      cases hmi : matchIdx rest p with
      | some i =>
        simp [matchIdx, hsel, hmi, List.replicate_succ, List.getD_cons_succ]
      | none =>
        simp [matchIdx, hsel, hmi, List.replicate_succ]

/-! ### Last-write characterization -/

theorem lookupLast_cons (e : Nat × String) (W : List (Nat × String)) (r : Nat) :
    lookupLast (e :: W) r = match lookupLast W r with
      | some v => some v
      | none => if e.1 == r then some e.2 else none := by
  have h := lookupLast_append [e] W r
  simp only [List.singleton_append] at h
  rw [h]
  cases lookupLast W r with
  | some v => rfl
  | none =>
    simp only [lookupLast, List.reverse_singleton, List.find?]
    by_cases hr : (e.1 == r) = true <;> simp [hr]

theorem lookupLast_eq_getLast (W : List (Nat × String)) (r : Nat) :
    lookupLast W r = (writesFor W r).getLast? := by
  induction W with
  | nil => rfl
  | cons e t ih =>
    rw [lookupLast_cons, ih]
    have hw : writesFor (e :: t) r
        = if e.1 == r then e.2 :: writesFor t r else writesFor t r := by
      unfold writesFor
      by_cases hr : (e.1 == r) = true <;> simp [List.filter_cons, hr]
    rw [hw]
    cases hl : (writesFor t r) with
    | nil => by_cases hr : (e.1 == r) = true <;> simp [hr]
    | cons b u =>
      have hne : b :: u ≠ [] := by simp
      by_cases hr : (e.1 == r) = true
      · simp only [hr, if_true]
        rw [List.getLast?_cons_cons]
        cases hg : (b :: u).getLast? with
        | none => simp [List.getLast?_eq_none_iff] at hg
        | some v => simp [hg]
      · simp only [hr, if_false]
        cases hg : (b :: u).getLast? with
        | none => simp [List.getLast?_eq_none_iff] at hg
        | some v => simp [hg]

theorem getLast_replicate (n : Nat) (v : String) :
    (List.replicate (n + 1) v).getLast? = some v := by
  induction n with
  | zero => rfl
  | succ k ih =>
    rw [List.replicate_succ, List.replicate_succ, List.getLast?_cons_cons,
      ← List.replicate_succ]
    exact ih

/-- `firstMatchPath` through the index of the first matching collection. -/
theorem firstMatchPath_eq_matchIdx (cols : List Collection) (p : PostNode) :
    firstMatchPath cols p = match matchIdx cols p with
      | some i => (cols.getD i dummyCollection).path
      | none => "/" := by
  induction cols with
  | nil => rfl
  | cons c rest ih =>
    by_cases hsel : c.selector p = true
    · simp [firstMatchPath, matchIdx, hsel, List.find?_cons_of_pos _ hsel]
    · have hb : c.selector p = false := by
        cases h : c.selector p
        · rfl
        · exact absurd h hsel
      rw [matchIdx]
      rw [firstMatchPath, List.find?_cons_of_neg _ (by simp [hb])]
      rw [firstMatchPath] at ih
      rw [ih, hb]
      simp only [if_false, Bool.false_eq_true]
      cases matchIdx rest p with
      | none => rfl
      | some i => simp [List.getD_cons_succ]

/-- After the whole collection loop, a post's last `collectionPath` write
is the path of the first configured collection whose selector matches it,
or `/` when none matches (provided at least one collection is configured). -/
theorem chain_lookupLast (cols : List Collection) (posts : List PostNode)
    (p : PostNode) (hp : p ∈ posts) (hnd : (posts.map PostNode.ref).Nodup)
    (hcols : cols ≠ []) :
    lookupLast (chainWrites cols posts) p.ref = some (firstMatchPath cols p) := by
  rw [lookupLast_eq_getLast, writesFor_chain cols posts p hp hnd,
    firstMatchPath_eq_matchIdx]
  cases hmi : matchIdx cols p with
  | some i => simp [List.getLast?_concat]
  | none =>
    obtain ⟨c, rest, rfl⟩ : ∃ c rest, cols = c :: rest := by
      cases cols with
      | nil => exact absurd rfl hcols
      | cons c rest => exact ⟨c, rest, rfl⟩
    simp [List.length_cons, getLast_replicate]

/-! ### Collection-loop lemmas -/

/-- The per-collection id lookup of `createPostPages` is over the ids of
the very posts being rendered, so it always succeeds. -/
theorem createPostPages_snd_none (bp : String) (posts : List PostNode)
    (tags : List TaxNode) (comp : String) (s : Store) (amp : String) :
    (createPostPages bp posts tags comp s amp).2 = none := by
  obtain ⟨m, hm, _⟩ := getCollectionPaths_ok (posts.map (fun e => e.id)) posts s
    (fun id hid => by
      obtain ⟨p, hp, hpid⟩ := List.mem_map.mp hid
      exact ⟨p, hp, hpid⟩)
  unfold createPostPages
  rw [hm]

theorem createCollection_snd_none (bp : String) (isc : Bool) (ppp : Nat)
    (posts : List PostNode) (tags : List TaxNode) (cp : String) (s : Store) :
    (createCollection bp isc ppp posts tags cp s).2 = none := by
  have h := createPostPages_snd_none bp posts tags "post" s ""
  unfold createCollection
  split
  · rename_i rs e heq
    rw [heq] at h
    cases h
  · rfl

/-- Reduction of one step of the collection loop (the `createPostPages`
lookup never fails, so the error branch is dead). -/
theorem collectionLoop_cons (bp : String) (isc : Bool) (ppp : Nat)
    (tags : List TaxNode) (c : Collection) (rest : List Collection)
    (posts : List PostNode) (s : Store) :
    collectionLoop bp isc ppp tags (c :: rest) posts s =
      ⟨(createCollection bp isc ppp (getCollection posts c.path c.selector).1 tags c.path
          (applyWrites (getCollection posts c.path c.selector).2.2 s)).1
        ++ (collectionLoop bp isc ppp tags rest (getCollection posts c.path c.selector).2.1
            (applyWrites (getCollection posts c.path c.selector).2.2 s)).routes,
       (collectionLoop bp isc ppp tags rest (getCollection posts c.path c.selector).2.1
            (applyWrites (getCollection posts c.path c.selector).2.2 s)).err,
       (collectionLoop bp isc ppp tags rest (getCollection posts c.path c.selector).2.1
            (applyWrites (getCollection posts c.path c.selector).2.2 s)).deflt,
       (getCollection posts c.path c.selector).2.2
         ++ (collectionLoop bp isc ppp tags rest (getCollection posts c.path c.selector).2.1
            (applyWrites (getCollection posts c.path c.selector).2.2 s)).writes,
       (collectionLoop bp isc ppp tags rest (getCollection posts c.path c.selector).2.1
            (applyWrites (getCollection posts c.path c.selector).2.2 s)).store⟩ := by
  have hcr := createCollection_snd_none bp isc ppp
    (getCollection posts c.path c.selector).1 tags c.path
    (applyWrites (getCollection posts c.path c.selector).2.2 s)
  simp only [collectionLoop]
  split
  · rename_i e heq
    rw [hcr] at heq
    cases heq
  · rfl

theorem collectionLoop_nil (bp : String) (isc : Bool) (ppp : Nat)
    (tags : List TaxNode) (posts : List PostNode) (s : Store) :
    collectionLoop bp isc ppp tags [] posts s = ⟨[], none, posts, [], s⟩ := rfl

/-- The collection loop never throws, its write log is `chainWrites`, its
residual is the chain residual, and its final store is the initial store
with the whole write log applied. -/
theorem collectionLoop_spec (bp : String) (isc : Bool) (ppp : Nat)
    (tags : List TaxNode) (cols : List Collection) (posts : List PostNode)
    (s : Store) :
    (collectionLoop bp isc ppp tags cols posts s).err = none
    ∧ (collectionLoop bp isc ppp tags cols posts s).writes = chainWrites cols posts
    ∧ (collectionLoop bp isc ppp tags cols posts s).deflt = (partitionChain cols posts).2
    ∧ (collectionLoop bp isc ppp tags cols posts s).store
        = applyWrites (chainWrites cols posts) s := by
  induction cols generalizing posts s with
  | nil => exact ⟨rfl, rfl, rfl, rfl⟩
  | cons c rest ih =>
    obtain ⟨e1, e2, e3, e4⟩ := ih (getCollection posts c.path c.selector).2.1
      (applyWrites (getCollection posts c.path c.selector).2.2 s)
    rw [collectionLoop_cons]
    refine ⟨e1, ?_, ?_, ?_⟩
    · rw [e2, chainWrites_cons]
    · rw [e3]; rfl
    · rw [e4, chainWrites_cons, applyWrites_append]

/-- The id-path lookup only reads the store at refs of the supplied posts. -/
theorem getCollectionPaths_congr (ids : List Nat) (posts : List PostNode)
    (s t : Store) (h : ∀ p ∈ posts, s p.ref = t p.ref) :
    getCollectionPaths ids posts s = getCollectionPaths ids posts t := by
  induction ids with
  | nil => rfl
  | cons a rest ih =>
    cases hf : posts.find? (fun p => p.id == a) with
    | none =>
      unfold getCollectionPaths
      rw [hf]
    | some p =>
      have hp := h p (List.mem_of_find?_eq_some hf)
      unfold getCollectionPaths
      rw [hf]
      simp only [ih, hp]

theorem createPostPages_congr (bp : String) (posts : List PostNode)
    (tags : List TaxNode) (comp : String) (s t : Store) (amp : String)
    (h : ∀ p ∈ posts, s p.ref = t p.ref) :
    createPostPages bp posts tags comp s amp
      = createPostPages bp posts tags comp t amp := by
  unfold createPostPages
  rw [getCollectionPaths_congr _ posts s t h]

theorem createCollection_congr (bp : String) (isc : Bool) (ppp : Nat)
    (posts : List PostNode) (tags : List TaxNode) (cp : String) (s t : Store)
    (h : ∀ p ∈ posts, s p.ref = t p.ref) :
    createCollection bp isc ppp posts tags cp s
      = createCollection bp isc ppp posts tags cp t := by
  unfold createCollection
  rw [createPostPages_congr bp posts tags "post" s t "" h]

theorem createTaxonomyPages_congr (bp : String) (isc : Bool) (ppp : Nat)
    (tax : List TaxNode) (postIds : String → List Nat) (comp : String)
    (allPosts : List PostNode) (s t : Store)
    (h : ∀ p ∈ allPosts, s p.ref = t p.ref) :
    createTaxonomyPages bp isc ppp tax postIds comp allPosts s
      = createTaxonomyPages bp isc ppp tax postIds comp allPosts t := by
  induction tax with
  | nil => rfl
  | cons node rest ih =>
    unfold createTaxonomyPages
    rw [getCollectionPaths_congr _ allPosts s t h, ih]

/-- The loop's emitted routes only depend on the store at refs of its
input posts. -/
theorem collectionLoop_congr (bp : String) (isc : Bool) (ppp : Nat)
    (tags : List TaxNode) (cols : List Collection) (posts : List PostNode)
    (s t : Store) (h : ∀ p ∈ posts, s p.ref = t p.ref) :
    (collectionLoop bp isc ppp tags cols posts s).routes
      = (collectionLoop bp isc ppp tags cols posts t).routes := by
  induction cols generalizing posts s t with
  | nil => rfl
  | cons c rest ih =>
    rw [collectionLoop_cons, collectionLoop_cons]
    have h1 : ∀ p ∈ posts,
        applyWrites (getCollection posts c.path c.selector).2.2 s p.ref
          = applyWrites (getCollection posts c.path c.selector).2.2 t p.ref :=
      fun p hp => applyWrites_point _ s t p.ref (h p hp)
    have hprim : ∀ p ∈ (getCollection posts c.path c.selector).1,
        applyWrites (getCollection posts c.path c.selector).2.2 s p.ref
          = applyWrites (getCollection posts c.path c.selector).2.2 t p.ref := by
      intro p hp
      rw [getCollection_fst] at hp
      exact h1 p (List.mem_filter.mp hp).1
    have hresid : ∀ p ∈ (getCollection posts c.path c.selector).2.1,
        applyWrites (getCollection posts c.path c.selector).2.2 s p.ref
          = applyWrites (getCollection posts c.path c.selector).2.2 t p.ref := by
      intro p hp
      rw [getCollection_resid] at hp
      exact h1 p (List.mem_filter.mp hp).1
    show _ ++ _ = _ ++ _
    rw [createCollection_congr bp isc ppp _ tags c.path _ _ hprim,
      ih (getCollection posts c.path c.selector).2.1 _ _ hresid]

/-! ### Taxonomy and full-run reduction -/

/-- When every referenced id has a matching post, the taxonomy builder
emits exactly one block of paginated routes per node, in order, and never
throws. -/
theorem createTaxonomyPages_ok (bp : String) (isc : Bool) (ppp : Nat)
    (tax : List TaxNode) (postIds : String → List Nat) (comp : String)
    (allPosts : List PostNode) (s : Store)
    (hlook : ∀ node ∈ tax, ∀ id ∈ postIds node.slug, ∃ p ∈ allPosts, p.id = id) :
    createTaxonomyPages bp isc ppp tax postIds comp allPosts s
      = ((tax.map (taxonomyBlock bp isc ppp postIds comp allPosts s)).flatten,
         none) := by
  induction tax with
  | nil => rfl
  | cons node rest ih =>
    obtain ⟨m, hm, _⟩ := getCollectionPaths_ok (postIds node.slug) allPosts s
      (hlook node (List.mem_cons_self node rest))
    unfold createTaxonomyPages
    rw [hm]
    simp only [ih (fun n hn => hlook n (List.mem_cons_of_mem node hn)),
      List.map_cons, List.flatten_cons]
    unfold taxonomyBlock
    rw [hm]
    rfl

theorem infiniteScroll_tagIds_sub (enabled : Bool) (posts : List PostNode)
    (slug : String) :
    ∀ id ∈ (infiniteScroll enabled posts).tagIds slug, ∃ p ∈ posts, p.id = id := by
  intro id hid
  unfold infiniteScroll at hid
  by_cases h : enabled = true
  · simp only [h, if_true] at hid
    obtain ⟨p, hp, hpid⟩ := List.mem_map.mp hid
    exact ⟨p, (List.mem_filter.mp hp).1, hpid⟩
  · simp only [h, if_false] at hid
    simp at hid

theorem infiniteScroll_authorIds_sub (enabled : Bool) (posts : List PostNode)
    (slug : String) :
    ∀ id ∈ (infiniteScroll enabled posts).authorIds slug,
      ∃ p ∈ posts, p.id = id := by
  intro id hid
  unfold infiniteScroll at hid
  by_cases h : enabled = true
  · simp only [h, if_true] at hid
    obtain ⟨p, hp, hpid⟩ := List.mem_map.mp hid
    exact ⟨p, (List.mem_filter.mp hp).1, hpid⟩
  · simp only [h, if_false] at hid
    simp at hid

/-- Closed form of a successful `createPages` run: ordinary pages, then
the per-collection routes, the default collection, the tag blocks and the
author blocks; no error is thrown and the final store is the initial store
with the whole partition write log applied. -/
theorem createPages_eq (cfg : Config) (res : FetchResult) (s0 : Store)
    (herr : res.errors = false) :
    createPages cfg res s0 =
      ⟨createOrdinaryPages cfg.basePath res.pages "page"
        ++ (collectionLoop cfg.basePath cfg.iScrollEnabled res.postsPerPage res.tags
            cfg.collections res.posts s0).routes
        ++ (createCollection cfg.basePath cfg.iScrollEnabled res.postsPerPage
            (partitionChain cfg.collections res.posts).2 res.tags "/"
            (applyWrites (chainWrites cfg.collections res.posts) s0)).1
        ++ ((res.tags.filter (fun n => 0 < n.postCount.getD 0)).map
            (taxonomyBlock cfg.basePath cfg.iScrollEnabled res.postsPerPage
              (infiniteScroll cfg.iScrollEnabled res.posts).tagIds "tag" res.posts
              (applyWrites (chainWrites cfg.collections res.posts) s0))).flatten
        ++ ((res.authors.filter (fun n => 0 < n.postCount.getD 0)).map
            (taxonomyBlock cfg.basePath cfg.iScrollEnabled res.postsPerPage
              (infiniteScroll cfg.iScrollEnabled res.posts).authorIds "author"
              res.posts
              (applyWrites (chainWrites cfg.collections res.posts) s0))).flatten,
       none,
       chainWrites cfg.collections res.posts,
       applyWrites (chainWrites cfg.collections res.posts) s0⟩ := by
  obtain ⟨e1, e2, e3, e4⟩ := collectionLoop_spec cfg.basePath cfg.iScrollEnabled
    res.postsPerPage res.tags cfg.collections res.posts s0
  have htr := createTaxonomyPages_ok cfg.basePath cfg.iScrollEnabled res.postsPerPage
    (res.tags.filter (fun n => 0 < n.postCount.getD 0))
    (infiniteScroll cfg.iScrollEnabled res.posts).tagIds "tag" res.posts
    (applyWrites (chainWrites cfg.collections res.posts) s0)
    (fun node _ => infiniteScroll_tagIds_sub cfg.iScrollEnabled res.posts node.slug)
  have har := createTaxonomyPages_ok cfg.basePath cfg.iScrollEnabled res.postsPerPage
    (res.authors.filter (fun n => 0 < n.postCount.getD 0))
    (infiniteScroll cfg.iScrollEnabled res.posts).authorIds "author" res.posts
    (applyWrites (chainWrites cfg.collections res.posts) s0)
    (fun node _ => infiniteScroll_authorIds_sub cfg.iScrollEnabled res.posts node.slug)
  have hdc := createCollection_snd_none cfg.basePath cfg.iScrollEnabled
    res.postsPerPage (partitionChain cfg.collections res.posts).2 res.tags "/"
    (applyWrites (chainWrites cfg.collections res.posts) s0)
  unfold createPages
  simp only [herr, Bool.false_eq_true, if_false, e1, e2, e3, e4, hdc, htr, har]

/-! ### Store-insensitivity of a run with configured collections -/

/-- With at least one configured collection, the first partition step
already writes every input post's `collectionPath`. -/
theorem chainWrites_covers (c : Collection) (rest : List Collection)
    (posts : List PostNode) (p : PostNode) (hp : p ∈ posts) :
    p.ref ∈ (chainWrites (c :: rest) posts).map Prod.fst := by
  rw [chainWrites_cons, List.map_append]
  exact List.mem_append_left _ (getCollection_covers posts c.path c.selector p hp)

theorem taxonomyBlock_congr (bp : String) (isc : Bool) (ppp : Nat)
    (postIds : String → List Nat) (comp : String) (allPosts : List PostNode)
    (s t : Store) (node : TaxNode) (h : ∀ p ∈ allPosts, s p.ref = t p.ref) :
    taxonomyBlock bp isc ppp postIds comp allPosts s node
      = taxonomyBlock bp isc ppp postIds comp allPosts t node := by
  unfold taxonomyBlock
  rw [getCollectionPaths_congr _ allPosts s t h]

/-- With a nonempty collection list, the loop's routes do not depend on
the incoming store at all: every read happens after the step's writes. -/
theorem collectionLoop_insensitive (bp : String) (isc : Bool) (ppp : Nat)
    (tags : List TaxNode) (c : Collection) (rest : List Collection)
    (posts : List PostNode) (s t : Store) :
    (collectionLoop bp isc ppp tags (c :: rest) posts s).routes
      = (collectionLoop bp isc ppp tags (c :: rest) posts t).routes := by
  rw [collectionLoop_cons, collectionLoop_cons]
  have hagree : ∀ p ∈ posts,
      applyWrites (getCollection posts c.path c.selector).2.2 s p.ref
        = applyWrites (getCollection posts c.path c.selector).2.2 t p.ref :=
    fun p hp => applyWrites_of_key _ _ _ p.ref
      (getCollection_covers posts c.path c.selector p hp)
  have hprim : ∀ p ∈ (getCollection posts c.path c.selector).1,
      applyWrites (getCollection posts c.path c.selector).2.2 s p.ref
        = applyWrites (getCollection posts c.path c.selector).2.2 t p.ref := by
    intro p hp
    rw [getCollection_fst] at hp
    exact hagree p (List.mem_filter.mp hp).1
  have hresid : ∀ p ∈ (getCollection posts c.path c.selector).2.1,
      applyWrites (getCollection posts c.path c.selector).2.2 s p.ref
        = applyWrites (getCollection posts c.path c.selector).2.2 t p.ref := by
    intro p hp
    rw [getCollection_resid] at hp
    exact hagree p (List.mem_filter.mp hp).1
  show _ ++ _ = _ ++ _
  rw [createCollection_congr bp isc ppp _ tags c.path _ _ hprim,
    collectionLoop_congr bp isc ppp tags rest _ _ _ hresid]

/-- With a nonempty collection list, a successful run's routes and error
do not depend on the initial `collectionPath` store. -/
theorem createPages_insensitive (cfg : Config) (res : FetchResult) (s t : Store)
    (hcols : cfg.collections ≠ []) (herr : res.errors = false) :
    (createPages cfg res s).routes = (createPages cfg res t).routes
    ∧ (createPages cfg res s).err = (createPages cfg res t).err := by
  obtain ⟨c, rest, hc⟩ : ∃ c rest, cfg.collections = c :: rest := by
    cases hx : cfg.collections with
    | nil => exact absurd hx hcols
    | cons c rest => exact ⟨c, rest, rfl⟩
  have hagree : ∀ p ∈ res.posts,
      applyWrites (chainWrites cfg.collections res.posts) s p.ref
        = applyWrites (chainWrites cfg.collections res.posts) t p.ref := by
    intro p hp
    rw [hc]
    exact applyWrites_of_key _ s t p.ref (chainWrites_covers c rest res.posts p hp)
  have hdeflt : ∀ p ∈ (partitionChain cfg.collections res.posts).2,
      applyWrites (chainWrites cfg.collections res.posts) s p.ref
        = applyWrites (chainWrites cfg.collections res.posts) t p.ref :=
    fun p hp => hagree p (partitionChain_deflt_sub cfg.collections res.posts p hp)
  rw [createPages_eq cfg res s herr, createPages_eq cfg res t herr]
  refine ⟨?_, rfl⟩
  show _ ++ _ ++ _ ++ _ ++ _ = _ ++ _ ++ _ ++ _ ++ _
  rw [createCollection_congr cfg.basePath cfg.iScrollEnabled res.postsPerPage
      _ res.tags "/" _ _ hdeflt,
    List.map_congr_left (fun node _ => taxonomyBlock_congr cfg.basePath
      cfg.iScrollEnabled res.postsPerPage
      (infiniteScroll cfg.iScrollEnabled res.posts).tagIds "tag" res.posts _ _
      node hagree),
    List.map_congr_left (fun node _ => taxonomyBlock_congr cfg.basePath
      cfg.iScrollEnabled res.postsPerPage
      (infiniteScroll cfg.iScrollEnabled res.posts).authorIds "author" res.posts _ _
      node hagree)]
  rw [hc, collectionLoop_insensitive cfg.basePath cfg.iScrollEnabled
    res.postsPerPage res.tags c rest res.posts s t]

/-! ### Membership characterization of the partition chain -/

theorem partitionChain_fst_cons (c : Collection) (rest : List Collection)
    (posts : List PostNode) :
    (partitionChain (c :: rest) posts).1
      = (c.path, (getCollection posts c.path c.selector).1)
        :: (partitionChain rest (getCollection posts c.path c.selector).2.1).1 := rfl

theorem partitionChain_snd_cons (c : Collection) (rest : List Collection)
    (posts : List PostNode) :
    (partitionChain (c :: rest) posts).2
      = (partitionChain rest (getCollection posts c.path c.selector).2.1).2 := rfl

theorem getD_mem_of_lt {α : Type} (l : List α) (n : Nat) (d : α)
    (h : n < l.length) : l.getD n d ∈ l := by
  rw [List.getD_eq_getElem?_getD, List.getElem?_eq_getElem h]
  exact List.getElem_mem h

/-- A post lands in the default (residual) list exactly when no configured
selector matches it. -/
theorem mem_deflt_iff (cols : List Collection) (posts : List PostNode)
    (p : PostNode) (hp : p ∈ posts) :
    p ∈ (partitionChain cols posts).2 ↔ ∀ c ∈ cols, c.selector p = false := by
  induction cols generalizing posts with
  | nil => simp [partitionChain, hp]
  | cons c rest ih =>
    rw [partitionChain_snd_cons]
    by_cases hsel : c.selector p = true
    · constructor
      · intro hmem
        have hsub := partitionChain_deflt_sub rest _ p hmem
        rw [getCollection_resid] at hsub
        have h2 := (List.mem_filter.mp hsub).2
        rw [hsel] at h2
        cases h2
      · intro hall
        have := hall c (List.mem_cons_self c rest)
        rw [hsel] at this
        cases this
    · have hb : c.selector p = false := by
        cases h : c.selector p
        · rfl
        · exact absurd h hsel
      have hpresid : p ∈ (getCollection posts c.path c.selector).2.1 := by
        rw [getCollection_resid]
        exact List.mem_filter.mpr ⟨hp, by simp [hb]⟩
      rw [ih ((getCollection posts c.path c.selector).2.1) hpresid]
      constructor
      · intro hall c' hc'
        rcases List.mem_cons.mp hc' with rfl | hm
        · exact hb
        · exact hall c' hm
      · intro hall c' hc'
        exact hall c' (List.mem_cons_of_mem c hc')

/-- A post lands in the i-th collection's group exactly when the i-th
selector matches it and no earlier selector does (first match wins). -/
theorem mem_group_iff (cols : List Collection) (posts : List PostNode)
    (p : PostNode) (hp : p ∈ posts) (i : Nat) (hi : i < cols.length) :
    p ∈ ((partitionChain cols posts).1.getD i ("", [])).2 ↔
      ((cols.getD i dummyCollection).selector p = true
        ∧ ∀ j, j < i → (cols.getD j dummyCollection).selector p = false) := by
  induction cols generalizing posts i with
  | nil => cases hi
  | cons c rest ih =>
    rw [partitionChain_fst_cons]
    cases i with
    | zero =>
      simp only [List.getD_cons_zero]
      constructor
      · intro hmem
        refine ⟨?_, fun j hj => absurd hj (Nat.not_lt_zero j)⟩
        have : p ∈ (getCollection posts c.path c.selector).1 := hmem
        rw [getCollection_fst] at this
        exact (List.mem_filter.mp this).2
      · intro h
        show p ∈ (getCollection posts c.path c.selector).1
        rw [getCollection_fst]
        exact List.mem_filter.mpr ⟨hp, h.1⟩
    | succ k =>
      simp only [List.getD_cons_succ]
      have hk : k < rest.length := Nat.lt_of_succ_lt_succ hi
      by_cases hsel : c.selector p = true
      · constructor
        · intro hmem
          exfalso
          have hglen : k < (partitionChain rest
              (getCollection posts c.path c.selector).2.1).1.length := by
            rw [partitionChain_length]
            exact hk
          have hgm := getD_mem_of_lt _ k ("", []) hglen
          have hsub := partitionChain_group_sub rest
            (getCollection posts c.path c.selector).2.1 _ hgm p hmem
          rw [getCollection_resid] at hsub
          have h2 := (List.mem_filter.mp hsub).2
          rw [hsel] at h2
          cases h2
        · intro h
          have := h.2 0 (Nat.succ_pos k)
          rw [List.getD_cons_zero] at this
          rw [hsel] at this
          cases this
      · have hb : c.selector p = false := by
          cases h : c.selector p
          · rfl
          · exact absurd h hsel
        have hpresid : p ∈ (getCollection posts c.path c.selector).2.1 := by
          rw [getCollection_resid]
          exact List.mem_filter.mpr ⟨hp, by simp [hb]⟩
        rw [ih ((getCollection posts c.path c.selector).2.1) hpresid k hk]
        constructor
        · intro h
          refine ⟨h.1, fun j hj => ?_⟩
          cases j with
          | zero => rw [List.getD_cons_zero]; exact hb
          | succ j2 =>
            rw [List.getD_cons_succ]
            exact h.2 j2 (Nat.lt_of_succ_lt_succ hj)
        · intro h
          refine ⟨h.1, fun j hj => ?_⟩
          have := h.2 (j + 1) (Nat.succ_lt_succ hj)
          rw [List.getD_cons_succ] at this
          exact this

/-- The final store of a successful run with configured collections sends
every post's `ref` to its first-match collection path (or `/`). -/
theorem createPages_store_firstMatch (cfg : Config) (res : FetchResult)
    (s0 : Store) (hcols : cfg.collections ≠ []) (herr : res.errors = false)
    (hnd : (res.posts.map PostNode.ref).Nodup) (p : PostNode)
    (hp : p ∈ res.posts) :
    (createPages cfg res s0).store p.ref
      = some (firstMatchPath cfg.collections p) := by
  rw [createPages_eq cfg res s0 herr]
  show applyWrites (chainWrites cfg.collections res.posts) s0 p.ref = _
  rw [applyWrites_eq, chain_lookupLast cfg.collections res.posts p hp hnd hcols]

/-! ### Post-page and pagination groundwork -/

theorem getD_map_range {α : Type} (n : Nat) (f : Nat → α) (i : Nat) (d : α)
    (h : i < n) : ((List.range n).map f).getD i d = f i := by
  rw [List.getD_eq_getElem?_getD, List.getElem?_map, List.getElem?_range h]
  rfl

/-- The `prevNodes` slug at index `i` is the slug of post `i-1`, or the
empty sentinel at the head. -/
theorem prevSlugs_getD (posts : List PostNode) (i : Nat) (hi : i < posts.length) :
    (prevSlugs posts).getD i ""
      = if i = 0 then "" else (posts.getD (i - 1) dummyPost).slug := by
  cases i with
  | zero => rfl
  | succ k =>
    rw [prevSlugs, List.getD_cons_succ, if_neg (Nat.succ_ne_zero k)]
    have hk : k < posts.length - 1 := by omega
    rw [List.getD_eq_getElem?_getD, List.getElem?_map, List.dropLast_eq_take,
      List.getElem?_take_of_lt hk,
      List.getElem?_eq_getElem (by omega : k < posts.length),
      List.getD_eq_getElem?_getD,
      List.getElem?_eq_getElem (by omega : k + 1 - 1 < posts.length)]
    simp

/-- The `nextNodes` slug at index `i` is the slug of post `i+1`, or the
empty sentinel at the tail. -/
theorem nextSlugs_getD (posts : List PostNode) (i : Nat) (hi : i < posts.length) :
    (nextSlugs posts).getD i ""
      = if i + 1 = posts.length then "" else (posts.getD (i + 1) dummyPost).slug := by
  have hlen : ((posts.drop 1).map (fun p => p.slug)).length = posts.length - 1 := by
    rw [List.length_map, List.length_drop]
  by_cases hlast : i + 1 = posts.length
  · rw [if_pos hlast, nextSlugs, List.getD_eq_getElem?_getD,
      List.getElem?_append_right (by omega), hlen]
    have : i - (posts.length - 1) = 0 := by omega
    rw [this]
    rfl
  · rw [if_neg hlast, nextSlugs, List.getD_eq_getElem?_getD,
      List.getElem?_append_left (by rw [hlen]; omega), List.getElem?_map,
      List.getElem?_drop,
      List.getElem?_eq_getElem (by omega : 1 + i < posts.length),
      List.getD_eq_getElem?_getD,
      List.getElem?_eq_getElem (by omega : i + 1 < posts.length)]
    simp only [Option.map_some, Option.getD_some]
    have : 1 + i = i + 1 := by omega
    simp [this]

/-- Closed form of `createPostPages` (the id lookup always succeeds). -/
theorem createPostPages_eq (bp : String) (posts : List PostNode)
    (tags : List TaxNode) (comp : String) (s : Store) (amp : String) :
    ∃ m, getCollectionPaths (posts.map (fun e => e.id)) posts s = some m ∧
      createPostPages bp posts tags comp s amp
        = ((List.range posts.length).map (fun i =>
            { path := resolveUrl bp (lookupPath m (posts.getD i dummyPost).id)
                  (posts.getD i dummyPost).slug (posts.getD i dummyPost).url ++ amp
              component := comp
              context := { slug := some (posts.getD i dummyPost).slug
                           prev := some ((prevSlugs posts).getD i "")
                           next := some ((nextSlugs posts).getD i "")
                           tag := some ((posts.getD i dummyPost).primaryTag.getD "")
                           limit := some 3
                           skip := some 0
                           primaryTagCount := some (primaryTagCountOf tags
                             (posts.getD i dummyPost))
                           collectionPaths := some m } }), none) := by
  obtain ⟨m, hm, _⟩ := getCollectionPaths_ok (posts.map (fun e => e.id)) posts s
    (fun id hid => by
      obtain ⟨p, hp, hpid⟩ := List.mem_map.mp hid
      exact ⟨p, hp, hpid⟩)
  refine ⟨m, hm, ?_⟩
  unfold createPostPages
  rw [hm]

theorem paginate_length (t ipp : Nat) (comp : String) (pf : Nat → String)
    (ctx : Context) : (paginate t ipp comp pf ctx).length = numberOfPages t ipp := by
  unfold paginate
  rw [List.length_map, List.length_range]

theorem paginate_getD (t ipp : Nat) (comp : String) (pf : Nat → String)
    (ctx : Context) (i : Nat) (hi : i < numberOfPages t ipp) :
    (paginate t ipp comp pf ctx).getD i dummyRoute
      = { path := if i = 0 then pf i else pf i ++ "/" ++ toString (i + 1)
          component := comp
          context := { ctx with
            pageNumber := some i
            totalItems := some t
            itemsPerPage := some ipp
            cursor := some (i * ipp) } } := by
  unfold paginate
  rw [getD_map_range _ _ i dummyRoute hi]

/-- The ceiling property of the page count: pages cover all items and all
but the last page are full strictly below the total. -/
theorem numberOfPages_spec (t ipp : Nat) (hp : 0 < ipp) :
    (t = 0 → numberOfPages t ipp = 1)
    ∧ (0 < t → t ≤ numberOfPages t ipp * ipp
        ∧ (numberOfPages t ipp - 1) * ipp < t) := by
  constructor
  · intro ht
    subst ht
    unfold numberOfPages
    rw [Nat.div_eq_of_lt (by omega)]
    simp
  · intro ht
    have hq1 : 1 ≤ (t + ipp - 1) / ipp := by
      rw [Nat.le_div_iff_mul_le hp]
      omega
    have hmax : numberOfPages t ipp = (t + ipp - 1) / ipp := by
      unfold numberOfPages
      exact Nat.max_eq_right hq1
    have hmod := Nat.div_add_mod (t + ipp - 1) ipp
    have hlt := Nat.mod_lt (t + ipp - 1) hp
    rw [hmax]
    set q := (t + ipp - 1) / ipp with hqdef
    set r := (t + ipp - 1) % ipp with hrdef
    constructor
    · rw [Nat.mul_comm]
      set m := ipp * q with hmdef
      omega
    · rw [Nat.sub_mul, Nat.one_mul, Nat.mul_comm]
      set m := ipp * q with hmdef
      omega

/-- Case split of `primaryTagCountOf` on the shape of the primary tag. -/
theorem primaryTagCountOf_eq (tags : List TaxNode) (node : PostNode) :
    primaryTagCountOf tags node =
      match node.primaryTag with
      | none => 0
      | some ts =>
        match tags.find? (fun t => t.slug == ts) with
        | none => 0
        | some t => t.postCount.getD 0 := by
  unfold primaryTagCountOf
  cases h : node.primaryTag with
  | none =>
    have hf : tags.find? (fun t : TaxNode =>
        match (none : Option String) with
        | some ts => t.slug == ts
        | none => false) = none := by
      rw [List.find?_eq_none]
      intro t ht
      simp
    rw [hf]
  | some ts =>
    simp only []
    cases List.find? (fun t => t.slug == ts) tags <;> rfl

/-! ### Concrete inputs for witnesses and counterexamples -/

/-- Demo collection matching posts with slug `x`. -/
def demoColW : Collection := ⟨"/w/", fun p => p.slug == "x"⟩

/-- Demo collection overlapping `demoColW` (matches `x` and `z`). -/
def demoColV : Collection := ⟨"/v/", fun p => p.slug == "x" || p.slug == "z"⟩

/-- Demo post with slug `x` (matched by `demoColW` and `demoColV`). -/
def postX : PostNode := ⟨1, 1, "x", none, none, none⟩

/-- Demo post with slug `z` (matched only by `demoColV`). -/
def postZ : PostNode := ⟨2, 2, "z", none, none, none⟩

/-- One-collection configuration. -/
def demoCfg1 : Config := ⟨"/", [demoColW], false, false⟩

/-- Two-collection configuration with overlapping selectors. -/
def demoCfg2 : Config := ⟨"/", [demoColW, demoColV], false, false⟩

/-- Demo fetch result with the two posts above. -/
def demoRes : FetchResult := ⟨false, [], [postX, postZ], [], [], 5⟩

/-- Configuration with no configured collections. -/
def cexCfg0 : Config := ⟨"/", [], false, false⟩

/-- Fetch result with a single post, for the no-collection run. -/
def cexRes0 : FetchResult := ⟨false, [], [postX], [], [], 5⟩

/-- First collection of the double-write run (matches nothing here). -/
def cexColA : Collection := ⟨"/a/", fun p => p.slug == "q"⟩

/-- Second collection of the double-write run (matches slug `y`). -/
def cexColB : Collection := ⟨"/b/", fun p => p.slug == "y"⟩

/-- Demo post with slug `y`, matched only by the second collection. -/
def postY : PostNode := ⟨1, 1, "y", none, none, none⟩

/-- Two-collection configuration where `postY` matches only the second. -/
def cexCfg3 : Config := ⟨"/", [cexColA, cexColB], false, false⟩

/-- Fetch result with only `postY`. -/
def cexRes3 : FetchResult := ⟨false, [], [postY], [], [], 5⟩

/-- Three posts for the prev/next boundary example. -/
def postA3 : PostNode := ⟨1, 1, "a", none, none, none⟩

/-- Middle post of the prev/next example, with primary tag `t`. -/
def postB3 : PostNode := ⟨2, 2, "b", none, some "t", none⟩

/-- Last post of the prev/next example. -/
def postC3 : PostNode := ⟨3, 3, "c", none, none, none⟩

/-- The three-post list `[A, B, C]`. -/
def demoPosts3 : List PostNode := [postA3, postB3, postC3]

/-- Tag `t` with seven posts. -/
def demoTagT : TaxNode := ⟨"t", none, some 7⟩

/-- Tag with a zero post count. -/
def demoTagZero : TaxNode := ⟨"z0", none, some 0⟩

/-- Tag with a `null` post count. -/
def demoTagNull : TaxNode := ⟨"znull", none, none⟩

/-- Tag with two posts. -/
def demoTagTwo : TaxNode := ⟨"two", none, some 2⟩

/-- Ten identical posts (only the count matters for pagination). -/
def tenPosts : List PostNode := List.replicate 10 dummyPost

/-- Fetch result whose GraphQL query reported errors. -/
def cexResErr : FetchResult := ⟨true, [], [postX], [], [], 5⟩

/-! ### Claim theorems -/

/-- C1 (counterexample): with an empty configured collection list the run
executes no partitioning step, so the only post ends with no
`collectionPath` at all — not the claimed `/`. -/
theorem partition_complete_cex :
    (createPages cexCfg0 cexRes0 emptyStore).store 1 = none := by
  rw [createPages_eq cexCfg0 cexRes0 emptyStore rfl]
  rfl

/-- C1 (amended): when at least one collection is configured, after all
partitioning steps plus the default collection every post carries exactly
one final `collectionPath` — the first matching collection's path, or `/`
when no selector matched — and the collections' post groups together with
the default posts are a permutation of the input post list, with no post
in two groups and no default post in any group. -/
theorem partition_complete (cfg : Config) (res : FetchResult) (s0 : Store)
    (hcols : cfg.collections ≠ []) (herr : res.errors = false)
    (hnd : (res.posts.map PostNode.ref).Nodup) :
    (∀ p ∈ res.posts, (createPages cfg res s0).store p.ref
        = some (firstMatchPath cfg.collections p))
    ∧ List.Perm
        (((partitionChain cfg.collections res.posts).1.map Prod.snd).flatten
          ++ (partitionChain cfg.collections res.posts).2) res.posts
    ∧ List.Pairwise (fun g1 g2 => ∀ p, p ∈ g1.2 → p ∈ g2.2 → False)
        (partitionChain cfg.collections res.posts).1
    ∧ (∀ p ∈ (partitionChain cfg.collections res.posts).2,
        ∀ g ∈ (partitionChain cfg.collections res.posts).1, p ∉ g.2) :=
  ⟨fun p hp => createPages_store_firstMatch cfg res s0 hcols herr hnd p hp,
   partitionChain_perm _ _, partitionChain_pairwise _ _,
   partitionChain_deflt_disjoint _ _⟩

/-- Witness for C1 at the one-collection configuration: the matched post
is stamped `/w/`, the unmatched one `/`. -/
theorem partition_complete_witness :
    (createPages demoCfg1 demoRes emptyStore).store 1 = some "/w/"
    ∧ (createPages demoCfg1 demoRes emptyStore).store 2 = some "/" := by
  obtain ⟨h1, _, _, _⟩ := partition_complete demoCfg1 demoRes emptyStore
    (by intro h; exact List.noConfusion h) rfl (by decide)
  exact ⟨(h1 postX (by decide)).trans (by decide),
    (h1 postZ (by decide)).trans (by decide)⟩

/-- C2: first-match-wins precedence: a post lands in group `i` exactly
when selector `i` matches it and no earlier selector does; it lands in the
default posts exactly when no selector matches; and when some selector
matches, its final `collectionPath` is the earliest matching collection's
path. -/
theorem first_match_wins (cfg : Config) (res : FetchResult) (s0 : Store)
    (herr : res.errors = false) (hnd : (res.posts.map PostNode.ref).Nodup)
    (p : PostNode) (hp : p ∈ res.posts) :
    (∀ i, i < cfg.collections.length →
      (p ∈ ((partitionChain cfg.collections res.posts).1.getD i ("", [])).2 ↔
        ((cfg.collections.getD i dummyCollection).selector p = true
          ∧ ∀ j, j < i →
            (cfg.collections.getD j dummyCollection).selector p = false)))
    ∧ (p ∈ (partitionChain cfg.collections res.posts).2 ↔
        ∀ c ∈ cfg.collections, c.selector p = false)
    ∧ ((∃ c ∈ cfg.collections, c.selector p = true) →
        (createPages cfg res s0).store p.ref
          = some (firstMatchPath cfg.collections p)) := by
  refine ⟨fun i hi => mem_group_iff cfg.collections res.posts p hp i hi,
    mem_deflt_iff cfg.collections res.posts p hp, ?_⟩
  intro hex
  have hcols : cfg.collections ≠ [] := by
    obtain ⟨c, hc, _⟩ := hex
    intro hnil
    rw [hnil] at hc
    cases hc
  exact createPages_store_firstMatch cfg res s0 hcols herr hnd p hp

/-- Witness for C2: `postX` matches both configured collections and lands
only in the first one's group, stamped with its path. -/
theorem first_match_wins_witness :
    postX ∈ ((partitionChain demoCfg2.collections demoRes.posts).1.getD 0 ("", [])).2
    ∧ postX ∉ ((partitionChain demoCfg2.collections demoRes.posts).1.getD 1 ("", [])).2
    ∧ (createPages demoCfg2 demoRes emptyStore).store 1 = some "/w/" := by
  have h := first_match_wins demoCfg2 demoRes emptyStore rfl (by decide)
    postX (by decide)
  refine ⟨?_, ?_, ?_⟩
  · exact (h.1 0 (by decide)).mpr
      ⟨by decide, fun j hj => absurd hj (Nat.not_lt_zero j)⟩
  · intro hmem
    have h2 := ((h.1 1 (by decide)).mp hmem).2 0 (by decide)
    exact absurd h2 (by decide)
  · exact (h.2.2 ⟨demoColW, List.mem_cons_self _ _, by decide⟩).trans (by decide)

/-- C3 (counterexample): with two configured collections and a post that
matches only the second, the post's `collectionPath` is written twice in
one run, with two different values (`/` as residual of step one, then
`/b/` at step two). -/
theorem write_once_cex :
    (createPages cexCfg3 cexRes3 emptyStore).writes = [(1, "/"), (1, "/b/")]
    ∧ ("/" : String) ≠ "/b/" := by
  constructor
  · rw [createPages_eq cexCfg3 cexRes3 emptyStore rfl]
    decide
  · decide

/-- C3 (amended): a post's `collectionPath` is written once per
partitioning step the post takes part in — `/` while it stays residual,
then the matching collection's path at its first matching step, and
nothing afterwards; a never-matched post is stamped `/` once per
configured collection.  In particular the field can be written more than
once, but never after the post's matching step. -/
theorem write_log_spec (cfg : Config) (res : FetchResult) (s0 : Store)
    (herr : res.errors = false) (hnd : (res.posts.map PostNode.ref).Nodup)
    (p : PostNode) (hp : p ∈ res.posts) :
    writesFor (createPages cfg res s0).writes p.ref =
      match matchIdx cfg.collections p with
      | some i => List.replicate i "/"
          ++ [(cfg.collections.getD i dummyCollection).path]
      | none => List.replicate cfg.collections.length "/" := by
  rw [createPages_eq cfg res s0 herr]
  exact writesFor_chain cfg.collections res.posts p hp hnd

/-- Witness for C3 on the double-write run: the write log at ref 1 is
exactly `["/", "/b/"]`. -/
theorem write_log_spec_witness :
    writesFor (createPages cexCfg3 cexRes3 emptyStore).writes 1 = ["/", "/b/"] := by
  have h := write_log_spec cexCfg3 cexRes3 emptyStore rfl (by decide)
    postY (by decide)
  exact h.trans (by decide)

/-- C4: prev/next boundary sentinels: in the post routes built from an
ordered post list, route `i` carries `prev = posts[i-1].slug` (empty
string at the head) and `next = posts[i+1].slug` (empty string at the
tail). -/
theorem prev_next_sentinels (bp : String) (posts : List PostNode)
    (tags : List TaxNode) (comp : String) (s : Store) (amp : String)
    (i : Nat) (hi : i < posts.length) :
    ((createPostPages bp posts tags comp s amp).1.getD i dummyRoute).context.prev
      = some (if i = 0 then "" else (posts.getD (i - 1) dummyPost).slug)
    ∧ ((createPostPages bp posts tags comp s amp).1.getD i dummyRoute).context.next
      = some (if i + 1 = posts.length then ""
          else (posts.getD (i + 1) dummyPost).slug) := by
  obtain ⟨m, hm, heq⟩ := createPostPages_eq bp posts tags comp s amp
  rw [heq]
  simp only []
  rw [getD_map_range _ _ i dummyRoute hi]
  simp only []
  rw [prevSlugs_getD posts i hi, nextSlugs_getD posts i hi]
  exact ⟨rfl, rfl⟩

/-- Witness for C4 on the three-post list `[A, B, C]`: B links to A and C,
A's `prev` and C's `next` are the empty sentinel. -/
theorem prev_next_sentinels_witness :
    ((createPostPages "/" demoPosts3 [] "post" emptyStore "").1.getD 1
        dummyRoute).context.prev = some "a"
    ∧ ((createPostPages "/" demoPosts3 [] "post" emptyStore "").1.getD 1
        dummyRoute).context.next = some "c"
    ∧ ((createPostPages "/" demoPosts3 [] "post" emptyStore "").1.getD 0
        dummyRoute).context.prev = some ""
    ∧ ((createPostPages "/" demoPosts3 [] "post" emptyStore "").1.getD 2
        dummyRoute).context.next = some "" := by
  have h1 := prev_next_sentinels "/" demoPosts3 [] "post" emptyStore "" 1 (by decide)
  have h0 := prev_next_sentinels "/" demoPosts3 [] "post" emptyStore "" 0 (by decide)
  have h2 := prev_next_sentinels "/" demoPosts3 [] "post" emptyStore "" 2 (by decide)
  exact ⟨h1.1.trans (by decide), h1.2.trans (by decide),
    h0.1.trans (by decide), h2.2.trans (by decide)⟩

/-- C5: the index page count is `ceil(totalItems / itemsPerPage)` with a
minimum of one page even for zero items (characterized by the covering
inequalities), page 0's path is the collection root, and every later page
uses the page-numbered path under the root. -/
theorem pagination_count_paths (bp : String) (isc : Bool) (ppp : Nat)
    (posts : List PostNode) (postIds : List Nat) (comp cp : String)
    (hppp : 0 < ppp) :
    (createIndexPage bp isc ppp posts postIds comp cp).length
      = numberOfPages posts.length ppp
    ∧ (posts.length = 0 →
        (createIndexPage bp isc ppp posts postIds comp cp).length = 1)
    ∧ (0 < posts.length →
        posts.length ≤ (createIndexPage bp isc ppp posts postIds comp cp).length * ppp
        ∧ ((createIndexPage bp isc ppp posts postIds comp cp).length - 1) * ppp
            < posts.length)
    ∧ (∀ i, i < (createIndexPage bp isc ppp posts postIds comp cp).length →
        ((createIndexPage bp isc ppp posts postIds comp cp).getD i dummyRoute).path
          = if i = 0 then resolveUrl bp (some cp) "" none
            else resolveUrl bp (some cp) "" none ++ "page" ++ "/" ++ toString (i + 1)) := by
  have hlen : (createIndexPage bp isc ppp posts postIds comp cp).length
      = numberOfPages posts.length ppp := paginate_length _ _ _ _ _
  obtain ⟨hz, hpos⟩ := numberOfPages_spec posts.length ppp hppp
  refine ⟨hlen, ?_, ?_, ?_⟩
  · intro h0
    rw [hlen]
    exact hz h0
  · intro hpos2
    rw [hlen]
    exact hpos hpos2
  · intro i hi
    rw [hlen] at hi
    show ((paginate posts.length ppp comp _ _).getD i dummyRoute).path = _
    rw [paginate_getD _ _ _ _ _ i hi]
    by_cases h0 : i = 0
    · simp [h0]
    · simp only [h0, if_false]

/-- Witness for C5: ten items at page size three give four pages, zero
items still give one page, and page 1 is the page-numbered path. -/
theorem pagination_count_paths_witness :
    (0:Nat) < 3
    ∧ (createIndexPage "/" false 3 tenPosts [] "index" "/").length = 4
    ∧ (createIndexPage "/" false 3 [] [] "index" "/").length = 1
    ∧ ((createIndexPage "/" false 3 tenPosts [] "index" "/").getD 1 dummyRoute).path
        = "/page/2" := by
  have h10 := pagination_count_paths "/" false 3 tenPosts [] "index" "/" (by decide)
  have h0 := pagination_count_paths "/" false 3 [] [] "index" "/" (by decide)
  refine ⟨by decide, h10.1.trans (by decide), h0.2.1 (by decide), ?_⟩
  have hp := h10.2.2.2 1 (by rw [h10.1]; decide)
  exact hp.trans (by decide)

/-- C6: taxonomy skip rule: the taxonomy builder runs over the nodes with
`postCount > 0` only; each such node contributes exactly one block of
`numberOfPages postCount` (at least one) routes, and a node whose count is
zero or `null` is excluded from the filtered list and contributes no
routes. -/
theorem taxonomy_skip_rule (bp : String) (isc : Bool) (ppp : Nat)
    (tags : List TaxNode) (postIds : String → List Nat) (comp : String)
    (allPosts : List PostNode) (s : Store) (hppp : 0 < ppp)
    (hlook : ∀ node ∈ tags.filter (fun n => 0 < n.postCount.getD 0),
        ∀ id ∈ postIds node.slug, ∃ p ∈ allPosts, p.id = id) :
    createTaxonomyPages bp isc ppp
        (tags.filter (fun n => 0 < n.postCount.getD 0)) postIds comp allPosts s
      = (((tags.filter (fun n => 0 < n.postCount.getD 0)).map
          (taxonomyBlock bp isc ppp postIds comp allPosts s)).flatten, none)
    ∧ (∀ node ∈ tags, node.postCount.getD 0 = 0 →
        node ∉ tags.filter (fun n => 0 < n.postCount.getD 0))
    ∧ (∀ node ∈ tags, 0 < node.postCount.getD 0 →
        (taxonomyBlock bp isc ppp postIds comp allPosts s node).length
          = numberOfPages (node.postCount.getD 0) ppp
        ∧ 0 < (taxonomyBlock bp isc ppp postIds comp allPosts s node).length) := by
  refine ⟨createTaxonomyPages_ok bp isc ppp _ postIds comp allPosts s hlook,
    ?_, ?_⟩
  · intro node _ h0 hmem
    have hpos := (List.mem_filter.mp hmem).2
    simp only [decide_eq_true_eq] at hpos
    omega
  · intro node _ _
    have hblen : (taxonomyBlock bp isc ppp postIds comp allPosts s node).length
        = numberOfPages (node.postCount.getD 0) ppp := by
      unfold taxonomyBlock
      exact paginate_length _ _ _ _ _
    refine ⟨hblen, ?_⟩
    rw [hblen]
    exact Nat.lt_of_lt_of_le Nat.zero_lt_one (Nat.le_max_left _ _)

/-- Witness for C6: of three tags with counts 2, 0 and `null`, only the
first survives the filter and produces exactly one index route. -/
theorem taxonomy_skip_rule_witness :
    (createTaxonomyPages "/" false 3
        (([demoTagTwo, demoTagZero, demoTagNull] : List TaxNode).filter
          (fun n => 0 < n.postCount.getD 0))
        (fun _ => []) "tag" [] emptyStore).1.length = 1
    ∧ (createTaxonomyPages "/" false 3
        (([demoTagTwo, demoTagZero, demoTagNull] : List TaxNode).filter
          (fun n => 0 < n.postCount.getD 0))
        (fun _ => []) "tag" [] emptyStore).2 = none := by
  have h := taxonomy_skip_rule "/" false 3 [demoTagTwo, demoTagZero, demoTagNull]
    (fun _ => []) "tag" [] emptyStore (by decide)
    (fun node _ id hid => absurd hid (List.not_mem_nil id))
  constructor
  · rw [h.1]
    decide
  · rw [h.1]

/-- C7: the emitted `primaryTagCount` is the first tag whose slug equals
the post's primary-tag slug, with `0` when the post has no primary tag,
no tag matches, or the matched tag's count is `null`. -/
theorem primary_tag_count_fallback (bp : String) (posts : List PostNode)
    (tags : List TaxNode) (comp : String) (s : Store) (amp : String)
    (node : PostNode) (i : Nat) (hi : i < posts.length) :
    (((createPostPages bp posts tags comp s amp).1.getD i
          dummyRoute).context.primaryTagCount
        = some (primaryTagCountOf tags (posts.getD i dummyPost)))
    ∧ (node.primaryTag = none → primaryTagCountOf tags node = 0)
    ∧ (∀ ts, node.primaryTag = some ts →
        tags.find? (fun t => t.slug == ts) = none →
        primaryTagCountOf tags node = 0)
    ∧ (∀ ts t, node.primaryTag = some ts →
        tags.find? (fun t2 => t2.slug == ts) = some t → t.postCount = none →
        primaryTagCountOf tags node = 0)
    ∧ (∀ ts t c2, node.primaryTag = some ts →
        tags.find? (fun t2 => t2.slug == ts) = some t → t.postCount = some c2 →
        primaryTagCountOf tags node = c2) := by
  refine ⟨?_, ?_, ?_, ?_, ?_⟩
  · obtain ⟨m, hm, heq⟩ := createPostPages_eq bp posts tags comp s amp
    rw [heq]
    simp only []
    rw [getD_map_range _ _ i dummyRoute hi]
  · intro h
    rw [primaryTagCountOf_eq, h]
  · intro ts h hf
    rw [primaryTagCountOf_eq, h]
    simp only []
    rw [hf]
  · intro ts t h hf hc
    rw [primaryTagCountOf_eq, h]
    simp only []
    rw [hf]
    simp [hc]
  · intro ts t c2 h hf hc
    rw [primaryTagCountOf_eq, h]
    simp only []
    rw [hf]
    simp [hc]

/-- Witness for C7: post B's primary tag `t` has seven posts, post A has
no primary tag and falls back to zero. -/
theorem primary_tag_count_fallback_witness :
    (((createPostPages "/" demoPosts3 [demoTagT] "post" emptyStore "").1.getD 1
        dummyRoute).context.primaryTagCount = some 7)
    ∧ primaryTagCountOf [demoTagT] postA3 = 0 := by
  have h := primary_tag_count_fallback "/" demoPosts3 [demoTagT] "post"
    emptyStore "" postA3 1 (by decide)
  exact ⟨h.1.trans (by decide), h.2.1 (by decide)⟩

/-- C8: fetch-failure atomicity: a fetch result with errors aborts the run
with a single error before any route is emitted — no routes, no writes, an
untouched store. -/
theorem fetch_failure_atomicity (cfg : Config) (res : FetchResult) (s0 : Store)
    (herr : res.errors = true) :
    (createPages cfg res s0).routes = []
    ∧ (createPages cfg res s0).err = some "fetch"
    ∧ (createPages cfg res s0).writes = []
    ∧ (createPages cfg res s0).store = s0 := by
  unfold createPages
  rw [if_pos herr]
  exact ⟨rfl, rfl, rfl, rfl⟩

/-- Witness for C8 on a concrete failing fetch result. -/
theorem fetch_failure_atomicity_witness :
    (createPages demoCfg1 cexResErr emptyStore).routes = []
    ∧ (createPages demoCfg1 cexResErr emptyStore).err = some "fetch" := by
  have h := fetch_failure_atomicity demoCfg1 cexResErr emptyStore rfl
  exact ⟨h.1, h.2.1⟩

/-- C9: the id-to-collectionPath lookup fails fatally when some id has no
matching post (and the taxonomy builder surfaces that error), and when
every id is present it succeeds, sending each id to the `collectionPath`
of the first post bearing that id. -/
theorem lookup_fatal_on_missing_id (ids : List Nat) (posts : List PostNode)
    (s : Store) :
    ((∃ id ∈ ids, ∀ p ∈ posts, p.id ≠ id) →
      getCollectionPaths ids posts s = none)
    ∧ ((∀ id ∈ ids, ∃ p ∈ posts, p.id = id) →
        ∃ m, getCollectionPaths ids posts s = some m
          ∧ ∀ id ∈ ids, ∃ p, posts.find? (fun q => q.id == id) = some p
              ∧ lookupPath m id = s p.ref)
    ∧ (∀ (bp : String) (isc : Bool) (ppp : Nat) (node : TaxNode)
        (rest : List TaxNode) (postIds : String → List Nat) (comp : String),
        getCollectionPaths (postIds node.slug) posts s = none →
        (createTaxonomyPages bp isc ppp (node :: rest) postIds comp posts s).2
          = some "getCollectionPaths") := by
  refine ⟨fun h => getCollectionPaths_fails ids posts s h,
    fun h => getCollectionPaths_ok ids posts s h, ?_⟩
  intro bp isc ppp node rest postIds comp hnone
  unfold createTaxonomyPages
  rw [hnone]

/-- Witness for C9: id 5 with no posts fails; id 1 against the post with
id 1 succeeds and maps 1 to that post's (unassigned) `collectionPath`. -/
theorem lookup_fatal_witness :
    getCollectionPaths [5] [] emptyStore = none
    ∧ (∃ m, getCollectionPaths [1] [postX] emptyStore = some m
        ∧ lookupPath m 1 = none) := by
  have h := lookup_fatal_on_missing_id [5] ([] : List PostNode) emptyStore
  have h2 := lookup_fatal_on_missing_id [1] [postX] emptyStore
  constructor
  · exact h.1 ⟨5, by decide, fun p hp => absurd hp (List.not_mem_nil p)⟩
  · obtain ⟨m, hm, hprop⟩ := h2.2.1 (by
      intro id hid
      refine ⟨postX, List.mem_cons_self _ _, ?_⟩
      rcases List.mem_cons.mp hid with rfl | hfalse
      · rfl
      · cases hfalse)
    obtain ⟨p, hp, hval⟩ := hprop 1 (by decide)
    exact ⟨m, hm, hval.trans rfl⟩

/-- C10: two-run idempotence: re-running the planner on the store mutated
by a first run yields the same routes and the same error outcome as the
first run, for every configuration and content graph. -/
theorem two_run_idempotence (cfg : Config) (res : FetchResult) (s0 : Store) :
    (createPages cfg res (createPages cfg res s0).store).routes
      = (createPages cfg res s0).routes
    ∧ (createPages cfg res (createPages cfg res s0).store).err
      = (createPages cfg res s0).err := by
  cases herr : res.errors with
  | true =>
    have h1 : createPages cfg res s0 = ⟨[], some "fetch", [], s0⟩ := by
      unfold createPages
      rw [if_pos herr]
    rw [h1]
    simp only []
    rw [h1]
    exact ⟨rfl, rfl⟩
  | false =>
    cases hc : cfg.collections with
    | nil =>
      have hstore : (createPages cfg res s0).store = s0 := by
        rw [createPages_eq cfg res s0 herr]
        show applyWrites (chainWrites cfg.collections res.posts) s0 = s0
        rw [hc]
        rfl
      rw [hstore]
      exact ⟨rfl, rfl⟩
    | cons c rest =>
      exact createPages_insensitive cfg res ((createPages cfg res s0).store) s0
        (by rw [hc]; exact List.cons_ne_nil c rest) herr
